import Mathlib

/-!
Verification of the `delgoden/wallet` in-memory account/payment ledger
(`pkg/wallet/service.go`, `pkg/types/types.go`).

Strings of the Go code are modelled as `List Char`; `int`/`int64`/`Money`
values as `Int` (unbounded, matching the spec's "integer money in minor
units" reading); fallible operations return the updated `Service` paired
with an explicit result.  Go's runtime panics (nil-pointer dereference,
index out of range) are modelled as an explicit `crash` outcome, distinct
from returned `error` values.
-/

/-- Go strings, modelled as lists of characters. -/
abbrev Str : Type := List Char

/-- The decimal digit characters, in value order. -/
def digChar (d : Nat) : Char :=
  ['0', '1', '2', '3', '4', '5', '6', '7', '8', '9'].getD d '0'

/-- Numeric value of a decimal digit character. -/
def digVal (c : Char) : Nat := c.toNat - 48

/-- Fuel-based decimal rendering of a natural number (most significant digit
first), mirroring `strconv.FormatInt(_, 10)` on non-negative input.  The fuel
argument only forces structural termination; `natToChars` supplies enough. -/
def natToCharsAux : Nat → Nat → List Char
  | 0, _ => []
  | fuel + 1, n =>
    if n < 10 then [digChar n]
    else natToCharsAux fuel (n / 10) ++ [digChar (n % 10)]

/-- Decimal rendering of a natural number. -/
def natToChars (n : Nat) : List Char := natToCharsAux (n + 1) n

/-- Numeric value of a digit string (big-endian fold). -/
def parseNatVal (l : List Char) : Nat :=
  l.foldl (fun acc c => 10 * acc + digVal c) 0

/-- `strconv.Atoi` on an unsigned digit string: every character must be a
decimal digit and the string must be non-empty. -/
def parseNat (l : List Char) : Option Nat :=
  if l.isEmpty then none
  else if l.all Char.isDigit then some (parseNatVal l)
  else none

/-- `strconv.FormatInt(_, 10)`: optional leading minus sign. -/
def intToChars (i : Int) : List Char :=
  if i < 0 then '-' :: natToChars i.natAbs else natToChars i.toNat

/-- `strconv.Atoi`: optional sign followed by digits.  (The int64 range check
of the Go implementation is dropped, consistently with modelling all machine
integers as unbounded `Int`.) -/
def parseInt (l : List Char) : Option Int :=
  match l with
  | [] => none
  | c :: rest =>
    if c = '-' then (parseNat rest).map (fun n => -(Int.ofNat n))
    else if c = '+' then (parseNat rest).map (fun n => Int.ofNat n)
    else (parseNat l).map (fun n => Int.ofNat n)

lemma digVal_digChar : ∀ d < 10, digVal (digChar d) = d := by decide

lemma digChar_isDigit : ∀ d < 10, (digChar d).isDigit = true := by decide

lemma parseNatVal_append (l : List Char) (c : Char) :
    parseNatVal (l ++ [c]) = 10 * parseNatVal l + digVal c := by
  simp [parseNatVal, List.foldl_append]

lemma natToCharsAux_spec : ∀ fuel n, n < fuel →
    natToCharsAux fuel n ≠ [] ∧
    (∀ c ∈ natToCharsAux fuel n, ∃ d, d < 10 ∧ c = digChar d) ∧
    parseNatVal (natToCharsAux fuel n) = n := by
  intro fuel
  induction fuel with
  | zero => intro n hn; omega
  | succ fuel ih =>
    intro n hn
    by_cases h10 : n < 10
    · refine ⟨by simp [natToCharsAux, h10], ?_, ?_⟩
      · intro c hc
        simp [natToCharsAux, h10] at hc
        exact ⟨n, h10, hc⟩
      · simp [natToCharsAux, h10, parseNatVal, digVal_digChar n h10]
    · have hdiv : n / 10 < fuel := by
        have : n / 10 < n := Nat.div_lt_self (by omega) (by omega)
        omega
      obtain ⟨hne, hdig, hval⟩ := ih (n / 10) hdiv
      refine ⟨by simp [natToCharsAux, h10], ?_, ?_⟩
      · intro c hc
        simp only [natToCharsAux, if_neg h10, List.mem_append,
          List.mem_singleton] at hc
        rcases hc with hc | hc
        · exact hdig c hc
        · exact ⟨n % 10, Nat.mod_lt _ (by omega), hc⟩
      · simp only [natToCharsAux, if_neg h10]
        rw [parseNatVal_append, hval, digVal_digChar _ (Nat.mod_lt _ (by omega))]
        omega

lemma natToChars_ne_nil (n : Nat) : natToChars n ≠ [] :=
  (natToCharsAux_spec (n + 1) n (Nat.lt_succ_self n)).1

lemma natToChars_digits (n : Nat) :
    ∀ c ∈ natToChars n, ∃ d, d < 10 ∧ c = digChar d :=
  (natToCharsAux_spec (n + 1) n (Nat.lt_succ_self n)).2.1

lemma parseNatVal_natToChars (n : Nat) : parseNatVal (natToChars n) = n :=
  (natToCharsAux_spec (n + 1) n (Nat.lt_succ_self n)).2.2

lemma natToChars_isDigit (n : Nat) : ∀ c ∈ natToChars n, c.isDigit = true := by
  intro c hc
  obtain ⟨d, hd, rfl⟩ := natToChars_digits n c hc
  exact digChar_isDigit d hd

lemma parseNat_natToChars (n : Nat) : parseNat (natToChars n) = some n := by
  unfold parseNat
  rw [if_neg (by simp [List.isEmpty_iff, natToChars_ne_nil n]),
    if_pos (List.all_eq_true.mpr (natToChars_isDigit n)),
    parseNatVal_natToChars]

lemma intToChars_chars (i : Int) :
    ∀ c ∈ intToChars i, c = '-' ∨ c.isDigit = true := by
  intro c hc
  unfold intToChars at hc
  by_cases hi : i < 0
  · rw [if_pos hi] at hc
    rcases List.mem_cons.mp hc with rfl | hc
    · exact Or.inl rfl
    · exact Or.inr (natToChars_isDigit _ c hc)
  · rw [if_neg hi] at hc
    exact Or.inr (natToChars_isDigit _ c hc)

lemma not_mem_intToChars {c : Char} (h1 : c ≠ '-') (h2 : c.isDigit = false)
    (i : Int) : c ∉ intToChars i := by
  intro hc
  rcases intToChars_chars i c hc with hc' | hc'
  · exact h1 hc'
  · rw [hc'] at h2; cases h2

lemma parseInt_cons (c : Char) (rest : List Char) :
    parseInt (c :: rest) =
      if c = '-' then (parseNat rest).map (fun n => -(Int.ofNat n))
      else if c = '+' then (parseNat rest).map (fun n => Int.ofNat n)
      else (parseNat (c :: rest)).map (fun n => Int.ofNat n) := rfl

lemma parseInt_intToChars (i : Int) : parseInt (intToChars i) = some i := by
  by_cases hi : i < 0
  · unfold intToChars
    rw [if_pos hi, parseInt_cons, if_pos rfl, parseNat_natToChars]
    simp only [Option.map_some', Int.ofNat_eq_natCast]
    congr 1
    omega
  · unfold intToChars
    rw [if_neg hi]
    obtain ⟨c, rest, hcr⟩ := List.exists_cons_of_ne_nil (natToChars_ne_nil i.toNat)
    have hdig : c.isDigit = true := by
      apply natToChars_isDigit i.toNat
      rw [hcr]; exact List.mem_cons_self _ _
    have hcm : c ≠ '-' := by intro h; rw [h] at hdig; cases hdig
    have hcp : c ≠ '+' := by intro h; rw [h] at hdig; cases hdig
    rw [hcr, parseInt_cons, if_neg hcm, if_neg hcp, ← hcr, parseNat_natToChars]
    simp only [Option.map_some', Int.ofNat_eq_natCast]
    congr 1
    omega

/-! ## Data model (`pkg/types/types.go`) -/

/-- `types.Account`. -/
structure Account where
  ID : Int
  Phone : Str
  Balance : Int
deriving DecidableEq, Repr

/-- `types.Payment`.  `Status` is a raw string in the source
(`types.PaymentStatus` is `string`). -/
structure Payment where
  ID : Str
  AccountID : Int
  Amount : Int
  Category : Str
  Status : Str
deriving DecidableEq, Repr

/-- `types.Favorite`. -/
structure Favorite where
  ID : Str
  AccountID : Int
  Name : Str
  Amount : Int
  Category : Str
deriving DecidableEq, Repr

/-- `types.PaymentStatusOK`. -/
def statusOK : Str := ['O', 'K']

/-- `types.PaymentStatusFail`. -/
def statusFail : Str := ['F', 'A', 'I', 'L']

/-- `types.PaymentStatusInProgress`. -/
def statusInProgress : Str := ['I', 'N', 'P', 'R', 'O', 'G', 'R', 'E', 'S', 'S']

/-- The sentinel errors of `pkg/wallet`. -/
inductive Err where
  | phoneRegistered
  | amountMustBePositive
  | accountNotFound
  | notEnoughBalance
  | paymentNotFound
  | favoriteNotFound
deriving DecidableEq, Repr

/-- `wallet.Service`: the in-memory state. -/
structure Service where
  nextAccountID : Int
  accounts : List Account
  payments : List Payment
  favorites : List Favorite
deriving DecidableEq, Repr

/-- A zero-value `Service` (`&Service{}`). -/
def emptyService : Service := ⟨0, [], [], []⟩

/-- The first-match linear scan of `FindAccountByID` (and of the inline loops
in `Deposit`/`Pay`). -/
def findAccount (l : List Account) (accountID : Int) : Option Account :=
  l.find? (fun a => a.ID == accountID)

/-- The first-match linear scan of `FindPaymentByID`. -/
def findPayment (l : List Payment) (paymentID : Str) : Option Payment :=
  l.find? (fun p => p.ID == paymentID)

/-- The first-match linear scan of `FindFavoriteByID`. -/
def findFavorite (l : List Favorite) (favoriteID : Str) : Option Favorite :=
  l.find? (fun f => f.ID == favoriteID)

/-- In-place mutation through the pointer returned by a first-match scan:
update the first element satisfying the predicate, keep the rest. -/
def updateFirstBy (p : α → Bool) (f : α → α) : List α → List α
  | [] => []
  | x :: xs => if p x then f x :: xs else x :: updateFirstBy p f xs

/-! ## Service operations (`pkg/wallet/service.go`)

Each Go method mutates the receiver and returns a value and/or an `error`;
here it maps the input `Service` to the output `Service` paired with the
result.  `crash` stands for a Go runtime panic. -/

/-- Result of `Reject`: returned nil, returned a sentinel error, or panicked
(nil-pointer dereference). -/
inductive RejectOut where
  | ok
  | err (e : Err)
  | crash
deriving DecidableEq, Repr

/-- `Service.RegisterAccount`. -/
def RegisterAccount (s : Service) (phone : Str) : Service × Except Err Account :=
  if s.accounts.any (fun a => a.Phone == phone) then
    (s, .error .phoneRegistered)
  else
    let account : Account := ⟨s.nextAccountID + 1, phone, 0⟩
    ({ s with nextAccountID := s.nextAccountID + 1,
              accounts := s.accounts ++ [account] }, .ok account)

/-- `Service.Deposit`. -/
def Deposit (s : Service) (accountID : Int) (amount : Int) :
    Service × Except Err Unit :=
  if amount ≤ 0 then (s, .error .amountMustBePositive)
  else
    match findAccount s.accounts accountID with
    | none => (s, .error .accountNotFound)
    | some _ =>
      ({ s with accounts := (updateFirstBy (fun a => a.ID == accountID)
          (fun a => { a with Balance := a.Balance + amount }) s.accounts) },
        .ok ())

/-- `Service.Pay`.  `newID` stands for the `uuid.New().String()` value drawn
inside the call. -/
def Pay (s : Service) (newID : Str) (accountID : Int) (amount : Int)
    (category : Str) : Service × Except Err Payment :=
  if amount ≤ 0 then (s, .error .amountMustBePositive)
  else
    match findAccount s.accounts accountID with
    | none => (s, .error .accountNotFound)
    | some account =>
      if account.Balance < amount then (s, .error .notEnoughBalance)
      else
        let payment : Payment := ⟨newID, accountID, amount, category,
          statusInProgress⟩
        ({ s with
            accounts := (updateFirstBy (fun a => a.ID == accountID)
              (fun a => { a with Balance := a.Balance - amount }) s.accounts),
            payments := s.payments ++ [payment] }, .ok payment)

/-- `Service.FindAccountByID`. -/
def FindAccountByID (s : Service) (accountID : Int) : Except Err Account :=
  match findAccount s.accounts accountID with
  | none => .error .accountNotFound
  | some a => .ok a

/-- `Service.FindPaymentByID`. -/
def FindPaymentByID (s : Service) (paymentID : Str) : Except Err Payment :=
  match findPayment s.payments paymentID with
  | none => .error .paymentNotFound
  | some p => .ok p

/-- `Service.FindFavoriteByID`. -/
def FindFavoriteByID (s : Service) (favoriteID : Str) : Except Err Favorite :=
  match findFavorite s.favorites favoriteID with
  | none => .error .favoriteNotFound
  | some f => .ok f

/-- `Service.Reject`.  The source sets the payment's status to Fail through
the returned pointer, then looks up the owning account but tests the stale
error variable `err` (always nil here) instead of `err1`; when the account is
absent it therefore falls through to `account.Balance += payment.Amount` on a
nil pointer, a runtime panic (`crash`). -/
def Reject (s : Service) (paymentID : Str) : Service × RejectOut :=
  match findPayment s.payments paymentID with
  | none => (s, .err .paymentNotFound)
  | some payment =>
    let s1 : Service := { s with payments := (updateFirstBy
      (fun p => p.ID == paymentID)
      (fun p => { p with Status := statusFail }) s.payments) }
    match findAccount s1.accounts payment.AccountID with
    | none => (s1, .crash)
    | some _ =>
      ({ s1 with accounts := (updateFirstBy (fun a => a.ID == payment.AccountID)
          (fun a => { a with Balance := a.Balance + payment.Amount })
          s1.accounts) }, .ok)

/-- `Service.Repeat`. -/
def Repeat (s : Service) (newID : Str) (paymentID : Str) :
    Service × Except Err Payment :=
  match findPayment s.payments paymentID with
  | none => (s, .error .paymentNotFound)
  | some payment => Pay s newID payment.AccountID payment.Amount payment.Category

/-- `Service.FavoritePayment`. -/
def FavoritePayment (s : Service) (newID : Str) (paymentID : Str) (name : Str) :
    Service × Except Err Favorite :=
  match findPayment s.payments paymentID with
  | none => (s, .error .paymentNotFound)
  | some payment =>
    let favorite : Favorite := ⟨newID, payment.AccountID, name, payment.Amount,
      payment.Category⟩
    ({ s with favorites := s.favorites ++ [favorite] }, .ok favorite)

/-- `Service.PayFromFavorite`: no balance check and no debit, unlike `Pay`. -/
def PayFromFavorite (s : Service) (newID : Str) (favoriteID : Str) :
    Service × Except Err Payment :=
  match findFavorite s.favorites favoriteID with
  | none => (s, .error .favoriteNotFound)
  | some favorite =>
    let payment : Payment := ⟨newID, favorite.AccountID, favorite.Amount,
      favorite.Category, statusInProgress⟩
    ({ s with payments := s.payments ++ [payment] }, .ok payment)

/-! ## Flat-file persistence (`pkg/wallet/service.go`)

A dump file is modelled at record granularity: the list of strings that the
`bufio` reader loop yields.  For the directory format each element is one
line *without* its trailing newline (`ReadString('\n')` followed by
`TrimSuffix(_, "\n")`; a final unterminated fragment is discarded by the
`io.EOF` break).  For the legacy single-file format each element is one
record *including* its trailing `'|'` (`ReadString('|')` keeps the
delimiter).  Outcome of a loop: finished, returned a parse error, or
panicked on an out-of-range index. -/

/-- Result of an import loop. -/
inductive RunOut where
  | ok
  | errored
  | crashed
deriving DecidableEq, Repr

/-- Contents of the three dump files of the directory format; `none` models a
file that cannot be opened (tolerated: the source only logs and skips). -/
structure DumpDir where
  accounts : Option (List Str)
  payments : Option (List Str)
  favorites : Option (List Str)
deriving DecidableEq, Repr

/-- The `accounts.dump` line for one account: `ID;Phone;Balance`. -/
def accountLine (a : Account) : Str :=
  intToChars a.ID ++ ';' :: (a.Phone ++ ';' :: intToChars a.Balance)

/-- The `payments.dump` line: `ID;AccountID;Amount;Category;Status`. -/
def paymentLine (p : Payment) : Str :=
  p.ID ++ ';' :: (intToChars p.AccountID ++ ';' :: (intToChars p.Amount ++
    ';' :: (p.Category ++ ';' :: p.Status)))

/-- The `favorites.dump` line: `ID;AccountID;Name;Amount;Category`. -/
def favoriteLine (f : Favorite) : Str :=
  f.ID ++ ';' :: (intToChars f.AccountID ++ ';' :: (f.Name ++ ';' ::
    (intToChars f.Amount ++ ';' :: f.Category)))

/-- `Service.Export`: writes each non-empty collection to its dump file (an
empty collection leaves the file uncreated). -/
def Export (s : Service) : DumpDir :=
  ⟨if s.accounts.isEmpty then none else some (s.accounts.map accountLine),
   if s.payments.isEmpty then none else some (s.payments.map paymentLine),
   if s.favorites.isEmpty then none else some (s.favorites.map favoriteLine)⟩

/-- `Service.ExportToFile`: accounts only, each record `ID;Phone;Balance`
terminated by `'|'`. -/
def ExportToFile (s : Service) : List Str :=
  s.accounts.map (fun a =>
    intToChars a.ID ++ ';' :: (a.Phone ++ ';' :: (intToChars a.Balance ++ ['|'])))

/-- The accounts loop of `Service.Import`: split on `';'`, `Atoi` fields 0
and 2, then append only when `FindAccountByID` misses, updating
`nextAccountID` to the just-read ID. -/
def importAccLines (s : Service) : List Str → Service × RunOut
  | [] => (s, .ok)
  | line :: rest =>
    let sls := line.splitOn ';'
    match sls[0]? with
    | none => (s, .crashed)
    | some f0 =>
      match parseInt f0 with
      | none => (s, .errored)
      | some id =>
        match sls[2]? with
        | none => (s, .crashed)
        | some f2 =>
          match parseInt f2 with
          | none => (s, .errored)
          | some bal =>
            match findAccount s.accounts id with
            | some _ => importAccLines s rest
            | none =>
              match sls[1]? with
              | none => (s, .crashed)
              | some f1 =>
                importAccLines
                  { s with accounts := s.accounts ++ [⟨id, f1, bal⟩],
                           nextAccountID := id } rest

/-- The payments loop of `Service.Import`: fields `ID;AccountID;Amount;
Category;Status`; fields 3 and 4 are only read when the pre-check misses
(the struct literal sits inside the `if`). -/
def importPayLines (s : Service) : List Str → Service × RunOut
  | [] => (s, .ok)
  | line :: rest =>
    let sls := line.splitOn ';'
    match sls[0]? with
    | none => (s, .crashed)
    | some payID =>
      match sls[1]? with
      | none => (s, .crashed)
      | some f1 =>
        match parseInt f1 with
        | none => (s, .errored)
        | some accId =>
          match sls[2]? with
          | none => (s, .crashed)
          | some f2 =>
            match parseInt f2 with
            | none => (s, .errored)
            | some amt =>
              match findPayment s.payments payID with
              | some _ => importPayLines s rest
              | none =>
                match sls[3]? with
                | none => (s, .crashed)
                | some f3 =>
                  match sls[4]? with
                  | none => (s, .crashed)
                  | some f4 =>
                    importPayLines
                      { s with payments :=
                          s.payments ++ [⟨payID, accId, amt, f3, f4⟩] } rest

/-- The favorites loop of `Service.Import`: fields `ID;AccountID;Name;Amount;
Category`; field 3 (`Amount`) is read before the pre-check, fields 2 and 4
after it. -/
def importFavLines (s : Service) : List Str → Service × RunOut
  | [] => (s, .ok)
  | line :: rest =>
    let sls := line.splitOn ';'
    match sls[0]? with
    | none => (s, .crashed)
    | some favID =>
      match sls[1]? with
      | none => (s, .crashed)
      | some f1 =>
        match parseInt f1 with
        | none => (s, .errored)
        | some accId =>
          match sls[3]? with
          | none => (s, .crashed)
          | some f3 =>
            match parseInt f3 with
            | none => (s, .errored)
            | some amt =>
              match findFavorite s.favorites favID with
              | some _ => importFavLines s rest
              | none =>
                match sls[2]? with
                | none => (s, .crashed)
                | some f2 =>
                  match sls[4]? with
                  | none => (s, .crashed)
                  | some f4 =>
                    importFavLines
                      { s with favorites :=
                          s.favorites ++ [⟨favID, accId, f2, amt, f4⟩] } rest

/-- One file of the directory import: an unopenable file (`none`) is only
logged and skipped, otherwise the per-line loop runs. -/
def stageFile (loop : Service → List Str → Service × RunOut) (s : Service) :
    Option (List Str) → Service × RunOut
  | none => (s, .ok)
  | some ls => loop s ls

/-- `Service.Import`: processes `accounts.dump`, then `payments.dump`, then
`favorites.dump`; an unopenable file is only logged and skipped; a parse
error aborts the whole call at that point. -/
def Import (s : Service) (dd : DumpDir) : Service × RunOut :=
  match stageFile importAccLines s dd.accounts with
  | (s1, RunOut.ok) =>
    match stageFile importPayLines s1 dd.payments with
    | (s2, RunOut.ok) => stageFile importFavLines s2 dd.favorites
    | other => other
  | other => other

/-- `strings.TrimSuffix(_, "|")`: drop one trailing `'|'` when present. -/
def trimBar (l : Str) : Str :=
  if l.getLast? = some '|' then l.dropLast else l

/-- `Service.ImportFromFile`: records split on `';'`, `Atoi` on field 0 and
on field 2 after trimming the `'|'` terminator, and an unconditional append
(no duplicate check, `nextAccountID` untouched). -/
def ImportFromFile (s : Service) : List Str → Service × RunOut
  | [] => (s, .ok)
  | chunk :: rest =>
    let sls := chunk.splitOn ';'
    match sls[0]? with
    | none => (s, .crashed)
    | some f0 =>
      match parseInt f0 with
      | none => (s, .errored)
      | some id =>
        match sls[2]? with
        | none => (s, .crashed)
        | some f2 =>
          match parseInt (trimBar f2) with
          | none => (s, .errored)
          | some bal =>
            match sls[1]? with
            | none => (s, .crashed)
            | some f1 =>
              ImportFromFile
                { s with accounts := s.accounts ++ [⟨id, f1, bal⟩] } rest

/-! ## List helper lemmas -/

lemma splitOn_eq_splitOnP (c : Char) (l : Str) :
    l.splitOn c = l.splitOnP (· == c) := rfl

lemma not_beq_of_not_mem {c : Char} {l : Str} (h : c ∉ l) :
    ∀ x ∈ l, ¬((x == c) = true) := by
  intro x hx hbeq
  exact h (beq_iff_eq.mp hbeq ▸ hx)

/-- Splitting `a;b;d` on `';'` recovers the three fields when none of them
contains the separator. -/
lemma splitOn_sep3 (c : Char) (a b d : Str) (ha : c ∉ a) (hb : c ∉ b)
    (hd : c ∉ d) : (a ++ c :: (b ++ c :: d)).splitOn c = [a, b, d] := by
  rw [splitOn_eq_splitOnP,
    List.splitOnP_first (fun x => x == c) a (not_beq_of_not_mem ha) c
      (by simp) (b ++ c :: d),
    List.splitOnP_first (fun x => x == c) b (not_beq_of_not_mem hb) c
      (by simp) d,
    List.splitOnP_eq_single (fun x => x == c) d (not_beq_of_not_mem hd)]

/-- Splitting `a;b;d;e;g` on `';'` recovers the five fields when none of them
contains the separator. -/
lemma splitOn_sep5 (c : Char) (a b d e g : Str) (ha : c ∉ a) (hb : c ∉ b)
    (hd : c ∉ d) (he : c ∉ e) (hg : c ∉ g) :
    (a ++ c :: (b ++ c :: (d ++ c :: (e ++ c :: g)))).splitOn c =
      [a, b, d, e, g] := by
  rw [splitOn_eq_splitOnP,
    List.splitOnP_first (fun x => x == c) a (not_beq_of_not_mem ha) c
      (by simp) (b ++ c :: (d ++ c :: (e ++ c :: g))),
    List.splitOnP_first (fun x => x == c) b (not_beq_of_not_mem hb) c
      (by simp) (d ++ c :: (e ++ c :: g)),
    List.splitOnP_first (fun x => x == c) d (not_beq_of_not_mem hd) c
      (by simp) (e ++ c :: g),
    List.splitOnP_first (fun x => x == c) e (not_beq_of_not_mem he) c
      (by simp) g,
    List.splitOnP_eq_single (fun x => x == c) g (not_beq_of_not_mem hg)]

lemma find?_key_updateFirstBy_self {κ : Type} [BEq κ] [LawfulBEq κ]
    (key : α → κ) (k : κ) (f : α → α) (hf : ∀ y, key (f y) = key y)
    (l : List α) (x : α) (hx : l.find? (fun y => key y == k) = some x) :
    (updateFirstBy (fun y => key y == k) f l).find? (fun y => key y == k) =
      some (f x) := by
  induction l with
  | nil => simp at hx
  | cons y ys ih =>
    by_cases hy : (key y == k) = true
    · rw [List.find?_cons_of_pos (p := fun y => key y == k) ys hy] at hx
      injection hx with hx
      subst hx
      rw [updateFirstBy, if_pos hy]
      exact List.find?_cons_of_pos (p := fun y => key y == k) ys
        (by show (key (f y) == k) = true; rw [hf y]; exact hy)
    · rw [List.find?_cons_of_neg (p := fun y => key y == k) ys hy] at hx
      rw [updateFirstBy, if_neg hy]
      rw [List.find?_cons_of_neg (p := fun y => key y == k)
        (updateFirstBy (fun y => key y == k) f ys) hy]
      exact ih hx

lemma find?_key_updateFirstBy_other {κ : Type} [BEq κ] [LawfulBEq κ]
    (key : α → κ) (k k2 : κ) (f : α → α) (hf : ∀ y, key (f y) = key y)
    (l : List α) (hkk : k2 ≠ k) :
    (updateFirstBy (fun y => key y == k) f l).find? (fun y => key y == k2) =
      l.find? (fun y => key y == k2) := by
  induction l with
  | nil => rfl
  | cons y ys ih =>
    by_cases hy : (key y == k) = true
    · have hyk : key y = k := beq_iff_eq.mp hy
      have h2 : ¬((key y == k2) = true) := by
        rw [beq_iff_eq, hyk]; exact fun h => hkk h.symm
      have h2f : ¬((key (f y) == k2) = true) := by rw [hf]; exact h2
      rw [updateFirstBy, if_pos hy,
        List.find?_cons_of_neg (p := fun y => key y == k2) ys h2f,
        List.find?_cons_of_neg (p := fun y => key y == k2) ys h2]
    · rw [updateFirstBy, if_neg hy]
      by_cases h2 : (key y == k2) = true
      · rw [List.find?_cons_of_pos (p := fun y => key y == k2)
          (updateFirstBy (fun y => key y == k) f ys) h2,
          List.find?_cons_of_pos (p := fun y => key y == k2) ys h2]
      · rw [List.find?_cons_of_neg (p := fun y => key y == k2)
          (updateFirstBy (fun y => key y == k) f ys) h2,
          List.find?_cons_of_neg (p := fun y => key y == k2) ys h2]
        exact ih

lemma mem_updateFirstBy (p : α → Bool) (f : α → α) (l : List α) :
    ∀ y ∈ updateFirstBy p f l, y ∈ l ∨ ∃ x ∈ l, p x = true ∧ y = f x := by
  induction l with
  | nil => intro y hy; cases hy
  | cons z zs ih =>
    intro y hy
    by_cases hz : p z = true
    · rw [updateFirstBy, if_pos hz] at hy
      rcases List.mem_cons.mp hy with rfl | hy
      · exact Or.inr ⟨z, List.mem_cons_self _ _, hz, rfl⟩
      · exact Or.inl (List.mem_cons_of_mem _ hy)
    · rw [updateFirstBy, if_neg hz] at hy
      rcases List.mem_cons.mp hy with rfl | hy
      · exact Or.inl (List.mem_cons_self _ _)
      · rcases ih y hy with h | ⟨x, hx, hpx, rfl⟩
        · exact Or.inl (List.mem_cons_of_mem _ h)
        · exact Or.inr ⟨x, List.mem_cons_of_mem _ hx, hpx, rfl⟩

deriving instance DecidableEq for Except

/-! ## Behaviour of the individual operations -/

lemma Pay_nonpos (s : Service) (newID : Str) (accountID amount : Int)
    (category : Str) (h : amount ≤ 0) :
    Pay s newID accountID amount category = (s, .error .amountMustBePositive) := by
  rw [Pay, if_pos h]

lemma Pay_no_account (s : Service) (newID : Str) (accountID amount : Int)
    (category : Str) (h : ¬amount ≤ 0)
    (hf : findAccount s.accounts accountID = none) :
    Pay s newID accountID amount category = (s, .error .accountNotFound) := by
  rw [Pay, if_neg h, hf]

lemma Pay_insufficient (s : Service) (newID : Str) (accountID amount : Int)
    (category : Str) (acc : Account) (h : ¬amount ≤ 0)
    (hf : findAccount s.accounts accountID = some acc)
    (hb : acc.Balance < amount) :
    Pay s newID accountID amount category = (s, .error .notEnoughBalance) := by
  rw [Pay, if_neg h, hf]
  exact if_pos hb

lemma Pay_success (s : Service) (newID : Str) (accountID amount : Int)
    (category : Str) (acc : Account) (h : ¬amount ≤ 0)
    (hf : findAccount s.accounts accountID = some acc)
    (hb : ¬acc.Balance < amount) :
    Pay s newID accountID amount category =
      ({ s with
          accounts := (updateFirstBy (fun a => a.ID == accountID)
            (fun a => { a with Balance := a.Balance - amount }) s.accounts),
          payments := s.payments ++
            [⟨newID, accountID, amount, category, statusInProgress⟩] },
        .ok ⟨newID, accountID, amount, category, statusInProgress⟩) := by
  rw [Pay, if_neg h, hf]
  exact if_neg hb

lemma findAccount_update_self (l : List Account) (accountID : Int)
    (g : Account → Account) (hg : ∀ a, (g a).ID = a.ID) (acc : Account)
    (hf : findAccount l accountID = some acc) :
    findAccount (updateFirstBy (fun a => a.ID == accountID) g l) accountID =
      some (g acc) :=
  find?_key_updateFirstBy_self Account.ID accountID g hg l acc hf

lemma findAccount_update_other (l : List Account) (accountID id2 : Int)
    (g : Account → Account) (hg : ∀ a, (g a).ID = a.ID) (hne : id2 ≠ accountID) :
    findAccount (updateFirstBy (fun a => a.ID == accountID) g l) id2 =
      findAccount l id2 :=
  find?_key_updateFirstBy_other Account.ID accountID id2 g hg l hne

lemma findPayment_update_self (l : List Payment) (pid : Str)
    (g : Payment → Payment) (hg : ∀ p, (g p).ID = p.ID) (p : Payment)
    (hf : findPayment l pid = some p) :
    findPayment (updateFirstBy (fun q => q.ID == pid) g l) pid = some (g p) :=
  find?_key_updateFirstBy_self Payment.ID pid g hg l p hf

lemma Reject_not_found (s : Service) (pid : Str)
    (hp : findPayment s.payments pid = none) :
    Reject s pid = (s, .err .paymentNotFound) := by
  rw [Reject, hp]

lemma Reject_found (s : Service) (pid : Str) (p : Payment)
    (hp : findPayment s.payments pid = some p) :
    Reject s pid =
      (let s1 : Service := { s with payments := (updateFirstBy
        (fun q => q.ID == pid)
        (fun q => { q with Status := statusFail }) s.payments) }
      match findAccount s1.accounts p.AccountID with
      | none => (s1, .crash)
      | some _ =>
        ({ s1 with accounts := (updateFirstBy (fun a => a.ID == p.AccountID)
            (fun a => { a with Balance := a.Balance + p.Amount })
            s1.accounts) }, .ok)) := by
  rw [Reject, hp]

lemma Reject_success (s : Service) (pid : Str) (p : Payment) (a : Account)
    (hp : findPayment s.payments pid = some p)
    (ha : findAccount s.accounts p.AccountID = some a) :
    Reject s pid =
      ({ s with
          payments := (updateFirstBy (fun q => q.ID == pid)
            (fun q => { q with Status := statusFail }) s.payments),
          accounts := (updateFirstBy (fun b => b.ID == p.AccountID)
            (fun b => { b with Balance := b.Balance + p.Amount }) s.accounts) },
        .ok) := by
  rw [Reject, hp]
  dsimp only []
  rw [ha]

lemma Reject_missing_account (s : Service) (pid : Str) (p : Payment)
    (hp : findPayment s.payments pid = some p)
    (ha : findAccount s.accounts p.AccountID = none) :
    Reject s pid =
      ({ s with payments := (updateFirstBy (fun q => q.ID == pid)
          (fun q => { q with Status := statusFail }) s.payments) },
        .crash) := by
  rw [Reject, hp]
  dsimp only []
  rw [ha]

/-! ## Claims -/

/-- Claim C1: for every service state, `Pay` fails with `AmountMustBePositive`
when `amount ≤ 0`, with `AccountNotFound` when no account has the ID, with
`NotEnoughBalance` when the first matching account's balance is strictly below
`amount`, leaving the state unchanged in every failure case; otherwise it
debits exactly `amount` from that account (all other accounts, the favorites
and the counter untouched) and appends and returns a payment carrying that
account ID, amount, category, the freshly generated unique ID and status
`INPROGRESS`. -/
theorem claim_C1_Pay (s : Service) (newID : Str) (accountID amount : Int)
    (category : Str) :
    (amount ≤ 0 →
      Pay s newID accountID amount category = (s, .error .amountMustBePositive)) ∧
    (0 < amount → findAccount s.accounts accountID = none →
      Pay s newID accountID amount category = (s, .error .accountNotFound)) ∧
    (∀ acc, 0 < amount → findAccount s.accounts accountID = some acc →
      acc.Balance < amount →
      Pay s newID accountID amount category = (s, .error .notEnoughBalance)) ∧
    (∀ acc, 0 < amount → findAccount s.accounts accountID = some acc →
      amount ≤ acc.Balance → newID ∉ s.payments.map Payment.ID →
      ∃ s2 pm, Pay s newID accountID amount category = (s2, .ok pm) ∧
        pm = ⟨newID, accountID, amount, category, statusInProgress⟩ ∧
        (∀ q ∈ s.payments, q.ID ≠ pm.ID) ∧
        s2.payments = s.payments ++ [pm] ∧
        findAccount s2.accounts accountID =
          some { acc with Balance := acc.Balance - amount } ∧
        (∀ id2, id2 ≠ accountID →
          findAccount s2.accounts id2 = findAccount s.accounts id2) ∧
        s2.favorites = s.favorites ∧ s2.nextAccountID = s.nextAccountID) := by
  refine ⟨fun h => Pay_nonpos s newID accountID amount category h,
    fun h hf => Pay_no_account s newID accountID amount category (by omega) hf,
    fun acc h hf hb =>
      Pay_insufficient s newID accountID amount category acc (by omega) hf hb,
    fun acc h hf hb hfresh => ?_⟩
  refine ⟨_, _, Pay_success s newID accountID amount category acc (by omega) hf
    (by omega), rfl, ?_, rfl, ?_, ?_, rfl, rfl⟩
  · intro q hq he
    apply hfresh
    have hqe : q.ID = newID := he
    rw [← hqe]
    exact List.mem_map_of_mem Payment.ID hq
  · exact findAccount_update_self s.accounts accountID
      (fun a => { a with Balance := a.Balance - amount }) (fun a => rfl) acc hf
  · intro id2 hne
    exact findAccount_update_other s.accounts accountID id2
      (fun a => { a with Balance := a.Balance - amount }) (fun a => rfl) hne

/-- Concrete state used by several witnesses: one account with ID 1, phone
`"p"` and balance 10. -/
def wService : Service := ⟨1, [⟨1, ['p'], 10⟩], [], []⟩

/-- Witness for C1: each hypothesis of `claim_C1_Pay` discharged on concrete
inputs over `wService`. -/
theorem claim_C1_Pay_witness :
    Pay wService ['u'] 1 (-1) ['f'] = (wService, .error .amountMustBePositive) ∧
    Pay wService ['u'] 2 5 ['f'] = (wService, .error .accountNotFound) ∧
    Pay wService ['u'] 1 11 ['f'] = (wService, .error .notEnoughBalance) ∧
    findAccount (Pay wService ['u'] 1 4 ['f']).1.accounts 1 =
      some ⟨1, ['p'], 10 - 4⟩ := by
  refine ⟨(claim_C1_Pay wService ['u'] 1 (-1) ['f']).1 (by decide),
    (claim_C1_Pay wService ['u'] 2 5 ['f']).2.1 (by decide) (by decide),
    (claim_C1_Pay wService ['u'] 1 11 ['f']).2.2.1 ⟨1, ['p'], 10⟩ (by decide)
      (by decide) (by decide), ?_⟩
  obtain ⟨s2, pm, heq, hpm, hA, hB, hfind, hC⟩ :=
    (claim_C1_Pay wService ['u'] 1 4 ['f']).2.2.2 ⟨1, ['p'], 10⟩ (by decide)
      (by decide) (by decide) (by decide)
  rw [heq]
  exact hfind

/-- Claim C2: when the payment and its owning account both exist, `Reject`
sets the payment's status to `FAIL` and credits the payment amount back to
the owning account; a second `Reject` on the same payment succeeds again and
credits the amount a second time (no guard). -/
theorem claim_C2_Reject (s : Service) (pid : Str) (p : Payment) (a : Account)
    (hp : findPayment s.payments pid = some p)
    (ha : findAccount s.accounts p.AccountID = some a) :
    ∃ s2, Reject s pid = (s2, .ok) ∧
      findPayment s2.payments pid = some { p with Status := statusFail } ∧
      findAccount s2.accounts p.AccountID =
        some { a with Balance := a.Balance + p.Amount } ∧
      ∃ s3, Reject s2 pid = (s3, .ok) ∧
        findAccount s3.accounts p.AccountID =
          some { a with Balance := a.Balance + 2 * p.Amount } := by
  have h1 := Reject_success s pid p a hp ha
  refine ⟨_, h1, ?_, ?_, ?_⟩
  · exact findPayment_update_self s.payments pid
      (fun q => { q with Status := statusFail }) (fun q => rfl) p hp
  · exact findAccount_update_self s.accounts p.AccountID
      (fun b => { b with Balance := b.Balance + p.Amount }) (fun b => rfl) a ha
  · set s2 : Service :=
      { s with
          payments := (updateFirstBy (fun q => q.ID == pid)
            (fun q => { q with Status := statusFail }) s.payments),
          accounts := (updateFirstBy (fun b => b.ID == p.AccountID)
            (fun b => { b with Balance := b.Balance + p.Amount}) s.accounts) }
      with hs2
    have hp2 : findPayment s2.payments pid = some { p with Status := statusFail } :=
      findPayment_update_self s.payments pid
        (fun q => { q with Status := statusFail }) (fun q => rfl) p hp
    have ha2 : findAccount s2.accounts p.AccountID =
        some { a with Balance := a.Balance + p.Amount } :=
      findAccount_update_self s.accounts p.AccountID
        (fun b => { b with Balance := b.Balance + p.Amount }) (fun b => rfl) a ha
    have h2 := Reject_success s2 pid { p with Status := statusFail }
      { a with Balance := a.Balance + p.Amount } hp2 ha2
    refine ⟨_, h2, ?_⟩
    have h3 := findAccount_update_self s2.accounts p.AccountID
      (fun b => { b with Balance := b.Balance + p.Amount })
      (fun b => rfl) { a with Balance := a.Balance + p.Amount } ha2
    rw [h3]
    congr 1
    show ({ a with Balance := a.Balance + p.Amount + p.Amount } : Account) = _
    congr 1
    ring

/-- Concrete state for the Reject witnesses: one account (ID 1, balance 10)
and one InProgress payment of amount 5 against it. -/
def wService2 : Service :=
  ⟨1, [⟨1, ['p'], 10⟩], [⟨['x'], 1, 5, ['c'], statusInProgress⟩], []⟩

/-- Witness for C2: rejecting the payment of `wService2` twice leaves the
account with balance `10 + 2 * 5`. -/
theorem claim_C2_Reject_witness :
    findAccount (Reject (Reject wService2 ['x']).1 ['x']).1.accounts 1 =
      some ⟨1, ['p'], 10 + 2 * 5⟩ := by
  obtain ⟨s2, h2, hpay, hacc, s3, h3, hacc3⟩ :=
    claim_C2_Reject wService2 ['x'] ⟨['x'], 1, 5, ['c'], statusInProgress⟩
      ⟨1, ['p'], 10⟩ (by decide) (by decide)
  rw [h2]
  show findAccount (Reject s2 ['x']).1.accounts 1 = _
  rw [h3]
  exact hacc3

/-- Concrete state exercising the `Reject` error-variable bug: one payment
whose owning account (ID 1) does not exist. -/
def sOrphan : Service := ⟨0, [], [⟨['x'], 1, 5, ['c'], statusInProgress⟩], []⟩

/-- Claim C3 (code bug): with the payment present but its owning account
missing, the source's `Reject` tests the stale error variable `err` instead
of `err1`, so it never returns `AccountNotFound`; it falls through to a
nil-pointer dereference (modelled as `crash`) after having already flipped
the payment's status to `FAIL`. -/
theorem claim_C3_Reject_wrong_error :
    Reject sOrphan ['x'] =
      ({ sOrphan with payments := [⟨['x'], 1, 5, ['c'], statusFail⟩] }, .crash) ∧
    (Reject sOrphan ['x']).2 ≠ .err .accountNotFound := by
  constructor
  · rfl
  · decide

/-- Claim C4: when the favorite exists, `PayFromFavorite` appends and returns
a fresh `INPROGRESS` payment copying the favorite's account ID, amount and
category, and performs no balance validation and no debit: the accounts list
(hence every account's balance), the favorites and the ID counter are
untouched. -/
theorem claim_C4_PayFromFavorite (s : Service) (newID fid : Str) (f : Favorite)
    (hf : findFavorite s.favorites fid = some f)
    (hfresh : newID ∉ s.payments.map Payment.ID) :
    ∃ pm, PayFromFavorite s newID fid =
        ({ s with payments := s.payments ++ [pm] }, .ok pm) ∧
      pm = ⟨newID, f.AccountID, f.Amount, f.Category, statusInProgress⟩ ∧
      (∀ q ∈ s.payments, q.ID ≠ pm.ID) ∧
      (PayFromFavorite s newID fid).1.accounts = s.accounts ∧
      (PayFromFavorite s newID fid).1.favorites = s.favorites ∧
      (PayFromFavorite s newID fid).1.nextAccountID = s.nextAccountID := by
  have heq : PayFromFavorite s newID fid =
      ({ s with payments := s.payments ++
          [⟨newID, f.AccountID, f.Amount, f.Category, statusInProgress⟩] },
        .ok ⟨newID, f.AccountID, f.Amount, f.Category, statusInProgress⟩) := by
    rw [PayFromFavorite, hf]
  refine ⟨_, heq, rfl, ?_, by rw [heq], by rw [heq], by rw [heq]⟩
  intro q hq he
  apply hfresh
  have hqe : q.ID = newID := he
  rw [← hqe]
  exact List.mem_map_of_mem Payment.ID hq

/-- Concrete state for the C4 witness: account ID 1 with balance 10 and one
favorite of amount 7 against it. -/
def wService3 : Service :=
  ⟨1, [⟨1, ['p'], 10⟩], [], [⟨['v'], 1, ['n'], 7, ['c']⟩]⟩

/-- Witness for C4: paying from the favorite of `wService3` leaves the
accounts untouched (no debit of the amount 7) and returns the copied
payment. -/
theorem claim_C4_PayFromFavorite_witness :
    (PayFromFavorite wService3 ['u'] ['v']).1.accounts = [⟨1, ['p'], 10⟩] ∧
    (PayFromFavorite wService3 ['u'] ['v']).2 =
      .ok ⟨['u'], 1, 7, ['c'], statusInProgress⟩ := by
  obtain ⟨pm, heq, hpm, hfr, hacc, hfav, hnext⟩ :=
    claim_C4_PayFromFavorite wService3 ['u'] ['v'] ⟨['v'], 1, ['n'], 7, ['c']⟩
      (by decide) (by decide)
  subst hpm
  exact ⟨hacc, by rw [heq]⟩

/-- Folding a list of registrations, keeping only the state (the Go test
helper pattern of calling `RegisterAccount` repeatedly). -/
def regFold (s : Service) (phones : List Str) : Service :=
  phones.foldl (fun t ph => (RegisterAccount t ph).1) s

lemma RegisterAccount_dup (s : Service) (ph : Str)
    (h : ∃ a ∈ s.accounts, a.Phone = ph) :
    RegisterAccount s ph = (s, .error .phoneRegistered) := by
  rw [RegisterAccount, if_pos]
  rw [List.any_eq_true]
  obtain ⟨a, ha, he⟩ := h
  exact ⟨a, ha, beq_iff_eq.mpr he⟩

lemma RegisterAccount_fresh (s : Service) (ph : Str)
    (h : ∀ a ∈ s.accounts, a.Phone ≠ ph) :
    RegisterAccount s ph =
      ({ s with nextAccountID := s.nextAccountID + 1,
                accounts := s.accounts ++ [⟨s.nextAccountID + 1, ph, 0⟩] },
        .ok ⟨s.nextAccountID + 1, ph, 0⟩) := by
  rw [RegisterAccount, if_neg]
  rw [List.any_eq_true]
  rintro ⟨a, ha, he⟩
  exact h a ha (beq_iff_eq.mp he)

/-- The register-only reachability invariant: the ID counter equals the
account count and the account IDs read `1, 2, …, n` in order. -/
def SeqIds (s : Service) : Prop :=
  s.nextAccountID = Int.ofNat s.accounts.length ∧
  s.accounts.map Account.ID =
    (List.range s.accounts.length).map (fun k => Int.ofNat k + 1)

lemma SeqIds_register (s : Service) (ph : Str) (h : SeqIds s) :
    SeqIds (RegisterAccount s ph).1 := by
  obtain ⟨h1, h2⟩ := h
  by_cases hdup : ∃ a ∈ s.accounts, a.Phone = ph
  · rw [RegisterAccount_dup s ph hdup]
    exact ⟨h1, h2⟩
  · push_neg at hdup
    rw [RegisterAccount_fresh s ph hdup]
    constructor
    · show s.nextAccountID + 1 = Int.ofNat (s.accounts ++ [_]).length
      simp only [List.length_append, List.length_singleton]
      rw [h1]
      simp only [Int.ofNat_eq_natCast]
      push_cast
      ring
    · show (s.accounts ++ [(⟨s.nextAccountID + 1, ph, 0⟩ : Account)]).map
          Account.ID = _
      rw [List.map_append, h2]
      simp only [List.length_append, List.length_singleton]
      rw [List.range_succ, List.map_append]
      congr 1
      show [s.nextAccountID + 1] = [Int.ofNat s.accounts.length + 1]
      rw [h1]

lemma SeqIds_regFold (phones : List Str) :
    ∀ s, SeqIds s → SeqIds (regFold s phones) := by
  induction phones with
  | nil => intro s h; exact h
  | cons ph rest ih =>
    intro s h
    exact ih (RegisterAccount s ph).1 (SeqIds_register s ph h)

/-- Claim C5: `RegisterAccount` fails with `PhoneAlreadyRegistered` (state
unchanged) when some account already has the phone; otherwise it appends and
returns a zero-balance account carrying the next sequential ID; consequently,
starting from a fresh service the account IDs always read `1, 2, …, n`, i.e.
the k-th successful registration receives ID k. -/
theorem claim_C5_RegisterAccount (s : Service) (ph : Str) :
    ((∃ a ∈ s.accounts, a.Phone = ph) →
      RegisterAccount s ph = (s, .error .phoneRegistered)) ∧
    ((∀ a ∈ s.accounts, a.Phone ≠ ph) →
      RegisterAccount s ph =
        ({ s with nextAccountID := s.nextAccountID + 1,
                  accounts := s.accounts ++ [⟨s.nextAccountID + 1, ph, 0⟩] },
          .ok ⟨s.nextAccountID + 1, ph, 0⟩)) ∧
    (∀ phones : List Str, (regFold emptyService phones).accounts.map Account.ID =
      (List.range (regFold emptyService phones).accounts.length).map
        (fun k => Int.ofNat k + 1)) := by
  refine ⟨RegisterAccount_dup s ph, RegisterAccount_fresh s ph, fun phones => ?_⟩
  exact (SeqIds_regFold phones emptyService ⟨rfl, rfl⟩).2

/-- Witness for C5: registering `"p"`, `"q"`, `"p"` again (rejected) and
`"r"` from a fresh service yields IDs `1, 2, 3`. -/
theorem claim_C5_RegisterAccount_witness :
    RegisterAccount wService ['p'] = (wService, .error .phoneRegistered) ∧
    (RegisterAccount emptyService ['p']).2 = .ok ⟨0 + 1, ['p'], 0⟩ ∧
    (regFold emptyService [['p'], ['q'], ['p'], ['r']]).accounts.map Account.ID =
      (List.range (regFold emptyService
        [['p'], ['q'], ['p'], ['r']]).accounts.length).map
          (fun k => Int.ofNat k + 1) := by
  refine ⟨(claim_C5_RegisterAccount wService ['p']).1
      ⟨⟨1, ['p'], 10⟩, by decide, rfl⟩,
    by rw [(claim_C5_RegisterAccount emptyService ['p']).2.1 (by decide)]; rfl,
    (claim_C5_RegisterAccount emptyService ['p']).2.2
      [['p'], ['q'], ['p'], ['r']]⟩

/-- Claim C8: `Repeat(paymentID)` fails with `PaymentNotFound` when no
payment matches; otherwise it behaves exactly as `Pay` called with the
found payment's account ID, amount and category: in particular it fails
with `NotEnoughBalance` (state unchanged) when the balance is now too low,
and on success appends and returns a fresh `INPROGRESS` payment with a new
ID but identical account ID, amount and category. -/
theorem claim_C8_Repeat (s : Service) (newID pid : Str) :
    (findPayment s.payments pid = none →
      Repeat s newID pid = (s, .error .paymentNotFound)) ∧
    (∀ p, findPayment s.payments pid = some p →
      Repeat s newID pid = Pay s newID p.AccountID p.Amount p.Category ∧
      (∀ acc, findAccount s.accounts p.AccountID = some acc →
        0 < p.Amount → acc.Balance < p.Amount →
        Repeat s newID pid = (s, .error .notEnoughBalance)) ∧
      (∀ acc, findAccount s.accounts p.AccountID = some acc →
        0 < p.Amount → p.Amount ≤ acc.Balance →
        newID ∉ s.payments.map Payment.ID →
        ∃ s2 pm, Repeat s newID pid = (s2, .ok pm) ∧
          pm.ID = newID ∧ pm.ID ≠ p.ID ∧ pm.AccountID = p.AccountID ∧
          pm.Amount = p.Amount ∧ pm.Category = p.Category ∧
          pm.Status = statusInProgress ∧
          s2.payments = s.payments ++ [pm])) := by
  constructor
  · intro hp
    rw [Repeat, hp]
  · intro p hp
    have hpay : Repeat s newID pid = Pay s newID p.AccountID p.Amount p.Category := by
      rw [Repeat, hp]
    refine ⟨hpay, ?_, ?_⟩
    · intro acc hacc hpos hlow
      rw [hpay]
      exact Pay_insufficient s newID p.AccountID p.Amount p.Category acc
        (by omega) hacc hlow
    · intro acc hacc hpos hle hfresh
      rw [hpay]
      refine ⟨_, _, Pay_success s newID p.AccountID p.Amount p.Category acc
        (by omega) hacc (by omega), rfl, ?_, rfl, rfl, rfl, rfl, rfl⟩
      have hmem : p ∈ s.payments := List.mem_of_find?_eq_some hp
      intro he
      apply hfresh
      show newID ∈ _
      have he2 : newID = p.ID := he
      rw [he2]
      exact List.mem_map_of_mem Payment.ID hmem

/-- Witness for C8: repeating the payment of `wService2` (amount 5 against
balance 10) appends a second payment with the fresh ID. -/
theorem claim_C8_Repeat_witness :
    (Repeat wService2 ['u'] ['x']).1.payments =
      wService2.payments ++ [⟨['u'], 1, 5, ['c'], statusInProgress⟩] := by
  obtain ⟨hpay, hlow, hok⟩ :=
    (claim_C8_Repeat wService2 ['u'] ['x']).2 ⟨['x'], 1, 5, ['c'], statusInProgress⟩
      (by decide)
  obtain ⟨s2, pm, heq, hid, hne, hacc, hamt, hcat, hst, happ⟩ :=
    hok ⟨1, ['p'], 10⟩ (by decide) (by decide) (by decide) (by decide)
  rw [heq]
  show s2.payments = _
  rw [happ]
  congr 1
  show [pm] = _
  have : pm = ⟨['u'], 1, 5, ['c'], statusInProgress⟩ := by
    cases pm
    simp only [Payment.mk.injEq]
    exact ⟨hid, hacc, hamt, hcat, hst⟩
  rw [this]

/-! ## Reachability and the non-negative balance invariant -/

lemma mem_updateFirstBy_find? (p : α → Bool) (f : α → α) (l : List α) (x : α)
    (hx : l.find? p = some x) :
    ∀ y ∈ updateFirstBy p f l, y ∈ l ∨ y = f x := by
  induction l with
  | nil => intro y hy; cases hy
  | cons z zs ih =>
    intro y hy
    by_cases hz : p z = true
    · rw [List.find?_cons_of_pos zs hz] at hx
      injection hx with hx
      subst hx
      rw [updateFirstBy, if_pos hz] at hy
      rcases List.mem_cons.mp hy with rfl | hy
      · exact Or.inr rfl
      · exact Or.inl (List.mem_cons_of_mem _ hy)
    · rw [List.find?_cons_of_neg zs hz] at hx
      rw [updateFirstBy, if_neg hz] at hy
      rcases List.mem_cons.mp hy with rfl | hy
      · exact Or.inl (List.mem_cons_self _ _)
      · rcases ih hx y hy with h | h
        · exact Or.inl (List.mem_cons_of_mem _ h)
        · exact Or.inr h

/-- The state invariant behind the spec's "Balance never goes negative":
balances non-negative and every recorded payment/favorite amount positive. -/
def WalletInv (s : Service) : Prop :=
  (∀ a ∈ s.accounts, 0 ≤ a.Balance) ∧ (∀ p ∈ s.payments, 0 < p.Amount) ∧
  (∀ f ∈ s.favorites, 0 < f.Amount)

lemma Inv_register (s : Service) (ph : Str) (h : WalletInv s) :
    WalletInv (RegisterAccount s ph).1 := by
  obtain ⟨hA, hP, hF⟩ := h
  by_cases hdup : ∃ a ∈ s.accounts, a.Phone = ph
  · rw [RegisterAccount_dup s ph hdup]; exact ⟨hA, hP, hF⟩
  · push_neg at hdup
    rw [RegisterAccount_fresh s ph hdup]
    refine ⟨?_, hP, hF⟩
    intro a ha
    rcases List.mem_append.mp ha with h | h
    · exact hA a h
    · rw [List.mem_singleton.mp h]

lemma Inv_deposit (s : Service) (accountID amount : Int) (h : WalletInv s) :
    WalletInv (Deposit s accountID amount).1 := by
  obtain ⟨hA, hP, hF⟩ := h
  rw [Deposit]
  by_cases h0 : amount ≤ 0
  · rw [if_pos h0]; exact ⟨hA, hP, hF⟩
  · rw [if_neg h0]
    cases hacc : findAccount s.accounts accountID with
    | none => exact ⟨hA, hP, hF⟩
    | some acc =>
      refine ⟨?_, hP, hF⟩
      intro a ha
      rcases mem_updateFirstBy_find? _ _ s.accounts acc hacc a ha with hin | hup
      · exact hA a hin
      · rw [hup]
        have := hA acc (List.mem_of_find?_eq_some hacc)
        show 0 ≤ acc.Balance + amount
        omega

lemma Inv_pay (s : Service) (newID : Str) (accountID amount : Int)
    (category : Str) (h : WalletInv s) :
    WalletInv (Pay s newID accountID amount category).1 := by
  obtain ⟨hA, hP, hF⟩ := h
  by_cases h0 : amount ≤ 0
  · rw [Pay_nonpos s newID accountID amount category h0]; exact ⟨hA, hP, hF⟩
  cases hacc : findAccount s.accounts accountID with
  | none =>
    rw [Pay_no_account s newID accountID amount category h0 hacc]
    exact ⟨hA, hP, hF⟩
  | some acc =>
    by_cases hb : acc.Balance < amount
    · rw [Pay_insufficient s newID accountID amount category acc h0 hacc hb]
      exact ⟨hA, hP, hF⟩
    · rw [Pay_success s newID accountID amount category acc h0 hacc hb]
      refine ⟨?_, ?_, hF⟩
      · intro a ha
        rcases mem_updateFirstBy_find? _ _ s.accounts acc hacc a ha with hin | hup
        · exact hA a hin
        · rw [hup]
          show 0 ≤ acc.Balance - amount
          omega
      · intro q hq
        rcases List.mem_append.mp hq with hin | hnew
        · exact hP q hin
        · rw [List.mem_singleton.mp hnew]
          show 0 < amount
          omega

lemma Inv_reject (s : Service) (pid : Str) (h : WalletInv s) :
    WalletInv (Reject s pid).1 := by
  obtain ⟨hA, hP, hF⟩ := h
  cases hp : findPayment s.payments pid with
  | none => rw [Reject_not_found s pid hp]; exact ⟨hA, hP, hF⟩
  | some p =>
    have hPamt : 0 < p.Amount := hP p (List.mem_of_find?_eq_some hp)
    have hpay2 : ∀ q ∈ updateFirstBy (fun q => q.ID == pid)
        (fun q => { q with Status := statusFail }) s.payments, 0 < q.Amount := by
      intro q hq
      rcases mem_updateFirstBy_find? _ _ s.payments p hp q hq with hin | hup
      · exact hP q hin
      · rw [hup]
        exact hPamt
    cases hacc : findAccount s.accounts p.AccountID with
    | none =>
      rw [Reject_missing_account s pid p hp hacc]
      exact ⟨hA, hpay2, hF⟩
    | some a =>
      rw [Reject_success s pid p a hp hacc]
      refine ⟨?_, hpay2, hF⟩
      intro b hb
      rcases mem_updateFirstBy_find? _ _ s.accounts a hacc b hb with hin | hup
      · exact hA b hin
      · rw [hup]
        have := hA a (List.mem_of_find?_eq_some hacc)
        show 0 ≤ a.Balance + p.Amount
        omega

lemma Inv_repeat (s : Service) (newID pid : Str) (h : WalletInv s) :
    WalletInv (Repeat s newID pid).1 := by
  cases hp : findPayment s.payments pid with
  | none =>
    rw [Repeat, hp]
    exact h
  | some p =>
    rw [Repeat, hp]
    exact Inv_pay s newID p.AccountID p.Amount p.Category h

lemma Inv_favoritePayment (s : Service) (newID pid name : Str) (h : WalletInv s) :
    WalletInv (FavoritePayment s newID pid name).1 := by
  obtain ⟨hA, hP, hF⟩ := h
  cases hp : findPayment s.payments pid with
  | none => rw [FavoritePayment, hp]; exact ⟨hA, hP, hF⟩
  | some p =>
    rw [FavoritePayment, hp]
    refine ⟨hA, hP, ?_⟩
    intro f hf
    rcases List.mem_append.mp hf with hin | hnew
    · exact hF f hin
    · rw [List.mem_singleton.mp hnew]
      exact hP p (List.mem_of_find?_eq_some hp)

lemma Inv_payFromFavorite (s : Service) (newID fid : Str) (h : WalletInv s) :
    WalletInv (PayFromFavorite s newID fid).1 := by
  obtain ⟨hA, hP, hF⟩ := h
  cases hf : findFavorite s.favorites fid with
  | none => rw [PayFromFavorite, hf]; exact ⟨hA, hP, hF⟩
  | some f =>
    rw [PayFromFavorite, hf]
    refine ⟨hA, ?_, hF⟩
    intro q hq
    rcases List.mem_append.mp hq with hin | hnew
    · exact hP q hin
    · rw [List.mem_singleton.mp hnew]
      exact hF f (List.mem_of_find?_eq_some hf)

/-- One call of a state-mutating `Service` method (the read-only finders and
the exports leave the state unchanged and are omitted).  `uuid` draws are the
explicit `Str` arguments; the import operations carry the file contents. -/
inductive Op where
  | register (ph : Str)
  | deposit (accountID amount : Int)
  | pay (newID : Str) (accountID amount : Int) (category : Str)
  | reject (pid : Str)
  | repeatPay (newID pid : Str)
  | favorite (newID pid name : Str)
  | payFromFavorite (newID fid : Str)
  | importDir (dd : DumpDir)
  | importFile (chunks : List Str)
deriving DecidableEq

/-- State effect of one operation. -/
def applyOp (s : Service) : Op → Service
  | .register ph => (RegisterAccount s ph).1
  | .deposit accountID amount => (Deposit s accountID amount).1
  | .pay newID accountID amount category =>
      (Pay s newID accountID amount category).1
  | .reject pid => (Reject s pid).1
  | .repeatPay newID pid => (Repeat s newID pid).1
  | .favorite newID pid name => (FavoritePayment s newID pid name).1
  | .payFromFavorite newID fid => (PayFromFavorite s newID fid).1
  | .importDir dd => (Import s dd).1
  | .importFile chunks => (ImportFromFile s chunks).1

/-- Running a sequence of operations from a state. -/
def runOps (s : Service) (ops : List Op) : Service := ops.foldl applyOp s

/-- Marks the operations that do not import external data. -/
def importFree : Op → Bool
  | .importDir _ => false
  | .importFile _ => false
  | _ => true

lemma Inv_applyOp (s : Service) (op : Op) (hop : importFree op = true)
    (h : WalletInv s) : WalletInv (applyOp s op) := by
  cases op with
  | register ph => exact Inv_register s ph h
  | deposit accountID amount => exact Inv_deposit s accountID amount h
  | pay newID accountID amount category =>
      exact Inv_pay s newID accountID amount category h
  | reject pid => exact Inv_reject s pid h
  | repeatPay newID pid => exact Inv_repeat s newID pid h
  | favorite newID pid name => exact Inv_favoritePayment s newID pid name h
  | payFromFavorite newID fid => exact Inv_payFromFavorite s newID fid h
  | importDir dd => cases hop
  | importFile chunks => cases hop

lemma Inv_runOps (ops : List Op) :
    ∀ s, (∀ op ∈ ops, importFree op = true) → WalletInv s → WalletInv (runOps s ops) := by
  induction ops with
  | nil => intro s _ h; exact h
  | cons op rest ih =>
    intro s hops h
    exact ih (applyOp s op)
      (fun o ho => hops o (List.mem_cons_of_mem _ ho))
      (Inv_applyOp s op (hops op (List.mem_cons_self _ _)) h)

/-- Claim C7, amended: along every sequence of mutating operations *other
than the two imports*, starting from a fresh service, every account balance
stays non-negative.  (The original claim also admitted import, which can
load a negative balance directly: see the counterexample.) -/
lemma WalletInv_empty : WalletInv emptyService := by
  unfold WalletInv
  exact ⟨fun a ha => (nomatch ha), fun p hp => (nomatch hp), fun f hf => (nomatch hf)⟩

theorem claim_C7_nonneg_balances (ops : List Op)
    (hops : ∀ op ∈ ops, importFree op = true) :
    ∀ a ∈ (runOps emptyService ops).accounts, 0 ≤ a.Balance :=
  (Inv_runOps ops emptyService hops WalletInv_empty).1

/-- Operation sequence for the C7 witness: register, deposit 20, pay 5,
reject the payment. -/
def wOps : List Op :=
  [.register ['p'], .deposit 1 20, .pay ['u'] 1 5 ['f'], .reject ['u']]

/-- Witness for the amended C7 on the concrete run `wOps`. -/
theorem claim_C7_nonneg_balances_witness :
    0 ≤ ((runOps emptyService wOps).accounts.headD ⟨0, [], 0⟩).Balance :=
  claim_C7_nonneg_balances wOps (by decide) _ (by decide)

/-- Counterexample to C7 as stated: `Import` (one of the service operations
the claim quantifies over) accepts a dump line `1;p;-5` and loads an account
with balance `-5`. -/
theorem claim_C7_counterexample :
    ¬ (∀ a ∈ (runOps emptyService
        [Op.importDir ⟨some [['1', ';', 'p', ';', '-', '5']], none, none⟩]).accounts,
      0 ≤ a.Balance) := by decide

/-- Claim C10: both import paths read fixed field positions without checking
the field count: a record with too few `';'`-separated fields makes
`accSls[2]`, `paySls[4]`, `favSls[4]` (and `accSls[2]` again in the legacy
reader) index out of range — a runtime panic (`crashed`), not a returned
error (`errored`). -/
theorem claim_C10_short_records :
    (Import emptyService ⟨some [['1']], none, none⟩).2 = .crashed ∧
    (Import emptyService
      ⟨none, some [['x', ';', '1', ';', '2', ';', 'c']], none⟩).2 = .crashed ∧
    (Import emptyService
      ⟨none, none, some [['x', ';', '1', ';', 'n', ';', '2']]⟩).2 = .crashed ∧
    (ImportFromFile emptyService [['1', ';', 'p', '|']]).2 = .crashed ∧
    (Import emptyService ⟨some [['1']], none, none⟩).2 ≠ .errored ∧
    (ImportFromFile emptyService [['1', ';', 'p', '|']]).2 ≠ .errored := by
  decide

/-! ## Export/Import round trip -/

lemma semi_not_mem_intToChars (i : Int) : ';' ∉ intToChars i :=
  not_mem_intToChars (by decide) (by decide) i

lemma accountLine_fields (a : Account) (h : ';' ∉ a.Phone) :
    (accountLine a).splitOn ';' =
      [intToChars a.ID, a.Phone, intToChars a.Balance] :=
  splitOn_sep3 ';' _ _ _ (semi_not_mem_intToChars a.ID) h
    (semi_not_mem_intToChars a.Balance)

lemma paymentLine_fields (p : Payment) (h1 : ';' ∉ p.ID) (h2 : ';' ∉ p.Category)
    (h3 : ';' ∉ p.Status) :
    (paymentLine p).splitOn ';' =
      [p.ID, intToChars p.AccountID, intToChars p.Amount, p.Category, p.Status] :=
  splitOn_sep5 ';' _ _ _ _ _ h1 (semi_not_mem_intToChars p.AccountID)
    (semi_not_mem_intToChars p.Amount) h2 h3

lemma favoriteLine_fields (f : Favorite) (h1 : ';' ∉ f.ID) (h2 : ';' ∉ f.Name)
    (h3 : ';' ∉ f.Category) :
    (favoriteLine f).splitOn ';' =
      [f.ID, intToChars f.AccountID, f.Name, intToChars f.Amount, f.Category] :=
  splitOn_sep5 ';' _ _ _ _ _ h1 (semi_not_mem_intToChars f.AccountID) h2
    (semi_not_mem_intToChars f.Amount) h3

lemma find?_append_single_none {p : α → Bool} (l : List α) (x : α)
    (h1 : l.find? p = none) (h2 : ¬p x = true) :
    (l ++ [x]).find? p = none := by
  rw [List.find?_append, h1, Option.none_or, List.find?_cons_of_neg [] h2]
  rfl

lemma find?_append_isSome {p : α → Bool} (l1 l2 : List α)
    (h : (l1.find? p).isSome = true) : ((l1 ++ l2).find? p).isSome = true := by
  rw [List.find?_append]
  cases hx : l1.find? p with
  | none => rw [hx] at h; cases h
  | some v => rfl

/-- `nextAccountID` as restored by the accounts import loop: the ID of the
last record, or the default when there are none. -/
def lastIdOr (d : Int) : List Account → Int
  | [] => d
  | a :: rest => lastIdOr a.ID rest

lemma importAccLines_cons_fresh (s : Service) (a : Account) (lines : List Str)
    (hphone : ';' ∉ a.Phone) (hfind : findAccount s.accounts a.ID = none) :
    importAccLines s (accountLine a :: lines) =
      importAccLines { s with accounts := s.accounts ++ [a],
                              nextAccountID := a.ID } lines := by
  simp only [importAccLines, accountLine_fields a hphone]
  simp only [List.getElem?_cons_zero, List.getElem?_cons_succ,
    parseInt_intToChars, hfind]

lemma importAccLines_roundtrip : ∀ (accs : List Account) (s : Service),
    (∀ a ∈ accs, ';' ∉ a.Phone) →
    (∀ a ∈ accs, findAccount s.accounts a.ID = none) →
    (accs.map Account.ID).Nodup →
    importAccLines s (accs.map accountLine) =
      ({ s with accounts := s.accounts ++ accs,
                nextAccountID := lastIdOr s.nextAccountID accs }, .ok) := by
  intro accs
  induction accs with
  | nil =>
    intro s _ _ _
    simp only [List.map_nil, importAccLines, lastIdOr, List.append_nil]
  | cons a rest ih =>
    intro s hphone hfind hnodup
    rw [List.map_cons, importAccLines_cons_fresh s a (rest.map accountLine)
      (hphone a (List.mem_cons_self _ _)) (hfind a (List.mem_cons_self _ _))]
    rw [List.map_cons, List.nodup_cons] at hnodup
    have hrest : ∀ b ∈ rest,
        findAccount (s.accounts ++ [a]) b.ID = none := by
      intro b hb
      apply find?_append_single_none _ _ (hfind b (List.mem_cons_of_mem _ hb))
      have hne : a.ID ≠ b.ID := by
        intro he
        exact hnodup.1 (he ▸ List.mem_map_of_mem Account.ID hb)
      simp only [beq_iff_eq]
      exact hne
    rw [ih _ (fun b hb => hphone b (List.mem_cons_of_mem _ hb)) hrest hnodup.2]
    simp only [List.append_assoc, List.singleton_append, lastIdOr]

lemma importPayLines_cons_fresh (s : Service) (p : Payment) (lines : List Str)
    (h1 : ';' ∉ p.ID) (h2 : ';' ∉ p.Category) (h3 : ';' ∉ p.Status)
    (hfind : findPayment s.payments p.ID = none) :
    importPayLines s (paymentLine p :: lines) =
      importPayLines { s with payments := s.payments ++ [p] } lines := by
  simp only [importPayLines, paymentLine_fields p h1 h2 h3]
  simp only [List.getElem?_cons_zero, List.getElem?_cons_succ,
    parseInt_intToChars, hfind]

lemma importPayLines_roundtrip : ∀ (pays : List Payment) (s : Service),
    (∀ p ∈ pays, ';' ∉ p.ID ∧ ';' ∉ p.Category ∧ ';' ∉ p.Status) →
    (∀ p ∈ pays, findPayment s.payments p.ID = none) →
    (pays.map Payment.ID).Nodup →
    importPayLines s (pays.map paymentLine) =
      ({ s with payments := s.payments ++ pays }, .ok) := by
  intro pays
  induction pays with
  | nil =>
    intro s _ _ _
    simp only [List.map_nil, importPayLines, List.append_nil]
  | cons p rest ih =>
    intro s hdelim hfind hnodup
    obtain ⟨hp1, hp2, hp3⟩ := hdelim p (List.mem_cons_self _ _)
    rw [List.map_cons, importPayLines_cons_fresh s p (rest.map paymentLine)
      hp1 hp2 hp3 (hfind p (List.mem_cons_self _ _))]
    rw [List.map_cons, List.nodup_cons] at hnodup
    have hrest : ∀ q ∈ rest,
        findPayment (s.payments ++ [p]) q.ID = none := by
      intro q hq
      apply find?_append_single_none _ _ (hfind q (List.mem_cons_of_mem _ hq))
      have hne : p.ID ≠ q.ID := by
        intro he
        exact hnodup.1 (he ▸ List.mem_map_of_mem Payment.ID hq)
      simp only [beq_iff_eq]
      exact hne
    rw [ih _ (fun q hq => hdelim q (List.mem_cons_of_mem _ hq)) hrest hnodup.2]
    simp only [List.append_assoc, List.singleton_append]

lemma importFavLines_cons_fresh (s : Service) (f : Favorite) (lines : List Str)
    (h1 : ';' ∉ f.ID) (h2 : ';' ∉ f.Name) (h3 : ';' ∉ f.Category)
    (hfind : findFavorite s.favorites f.ID = none) :
    importFavLines s (favoriteLine f :: lines) =
      importFavLines { s with favorites := s.favorites ++ [f] } lines := by
  simp only [importFavLines, favoriteLine_fields f h1 h2 h3]
  simp only [List.getElem?_cons_zero, List.getElem?_cons_succ,
    parseInt_intToChars, hfind]

lemma importFavLines_roundtrip : ∀ (favs : List Favorite) (s : Service),
    (∀ f ∈ favs, ';' ∉ f.ID ∧ ';' ∉ f.Name ∧ ';' ∉ f.Category) →
    (∀ f ∈ favs, findFavorite s.favorites f.ID = none) →
    (favs.map Favorite.ID).Nodup →
    importFavLines s (favs.map favoriteLine) =
      ({ s with favorites := s.favorites ++ favs }, .ok) := by
  intro favs
  induction favs with
  | nil =>
    intro s _ _ _
    simp only [List.map_nil, importFavLines, List.append_nil]
  | cons f rest ih =>
    intro s hdelim hfind hnodup
    obtain ⟨hf1, hf2, hf3⟩ := hdelim f (List.mem_cons_self _ _)
    rw [List.map_cons, importFavLines_cons_fresh s f (rest.map favoriteLine)
      hf1 hf2 hf3 (hfind f (List.mem_cons_self _ _))]
    rw [List.map_cons, List.nodup_cons] at hnodup
    have hrest : ∀ g ∈ rest,
        findFavorite (s.favorites ++ [f]) g.ID = none := by
      intro g hg
      apply find?_append_single_none _ _ (hfind g (List.mem_cons_of_mem _ hg))
      have hne : f.ID ≠ g.ID := by
        intro he
        exact hnodup.1 (he ▸ List.mem_map_of_mem Favorite.ID hg)
      simp only [beq_iff_eq]
      exact hne
    rw [ih _ (fun g hg => hdelim g (List.mem_cons_of_mem _ hg)) hrest hnodup.2]
    simp only [List.append_assoc, List.singleton_append]

lemma RegisterAccount_ok_ID (s : Service) (ph : Str) (t2 : Service)
    (acc : Account) (h : RegisterAccount s ph = (t2, .ok acc)) :
    acc.ID = s.nextAccountID + 1 := by
  rw [RegisterAccount] at h
  by_cases hd : s.accounts.any (fun a => a.Phone == ph)
  · rw [if_pos hd] at h
    injection h with h1 h2
    injection h2
  · rw [if_neg hd] at h
    injection h with h1 h2
    injection h2 with h2
    rw [← h2]

lemma stageAcc_export (s : Service)
    (hph : ∀ a ∈ s.accounts, ';' ∉ a.Phone)
    (hAn : (s.accounts.map Account.ID).Nodup) :
    stageFile importAccLines emptyService (Export s).accounts =
      ((⟨lastIdOr 0 s.accounts, s.accounts, [], []⟩ : Service), .ok) := by
  show stageFile importAccLines emptyService
      (if s.accounts.isEmpty then none else some (s.accounts.map accountLine)) = _
  by_cases hA : s.accounts.isEmpty
  · rw [if_pos hA, List.isEmpty_iff.mp hA]
    rfl
  · rw [if_neg hA]
    show importAccLines emptyService (s.accounts.map accountLine) = _
    rw [importAccLines_roundtrip s.accounts emptyService hph
      (fun a ha => rfl) hAn]
    rfl

lemma stagePay_export (s t : Service) (ht : t.payments = [])
    (hpy : ∀ p ∈ s.payments, ';' ∉ p.ID ∧ ';' ∉ p.Category ∧ ';' ∉ p.Status)
    (hPn : (s.payments.map Payment.ID).Nodup) :
    stageFile importPayLines t (Export s).payments =
      ({ t with payments := s.payments }, .ok) := by
  show stageFile importPayLines t
      (if s.payments.isEmpty then none else some (s.payments.map paymentLine)) = _
  by_cases hP : s.payments.isEmpty
  · rw [if_pos hP, List.isEmpty_iff.mp hP]
    show (t, RunOut.ok) = _
    have he : ({ t with payments := ([] : List Payment) } : Service) = t := by
      cases t with
      | mk n a p f =>
        dsimp only [] at ht
        rw [ht]
    rw [he]
  · rw [if_neg hP]
    show importPayLines t (s.payments.map paymentLine) = _
    rw [importPayLines_roundtrip s.payments t hpy
      (fun p hp => by rw [findPayment, ht]; rfl) hPn, ht]
    rfl

lemma stageFav_export (s t : Service) (ht : t.favorites = [])
    (hfv : ∀ f ∈ s.favorites, ';' ∉ f.ID ∧ ';' ∉ f.Name ∧ ';' ∉ f.Category)
    (hFn : (s.favorites.map Favorite.ID).Nodup) :
    stageFile importFavLines t (Export s).favorites =
      ({ t with favorites := s.favorites }, .ok) := by
  show stageFile importFavLines t
      (if s.favorites.isEmpty then none else some (s.favorites.map favoriteLine)) = _
  by_cases hF : s.favorites.isEmpty
  · rw [if_pos hF, List.isEmpty_iff.mp hF]
    show (t, RunOut.ok) = _
    have he : ({ t with favorites := ([] : List Favorite) } : Service) = t := by
      cases t with
      | mk n a p f =>
        dsimp only [] at ht
        rw [ht]
    rw [he]
  · rw [if_neg hF]
    show importFavLines t (s.favorites.map favoriteLine) = _
    rw [importFavLines_roundtrip s.favorites t hfv
      (fun f hf => by rw [findFavorite, ht]; rfl) hFn, ht]
    rfl

/-- Claim C6, amended: for a state whose string fields contain no delimiter
characters (`';'`, newline) and whose per-collection IDs are pairwise
distinct, exporting to a fresh directory and importing into a fresh service
reconstructs accounts, payments and favorites with identical field values,
and sets `nextAccountID` to the ID of the *last* account record; therefore
the next `RegisterAccount` avoids every imported ID *provided* the last
exported account carries the maximal ID.  (Without the distinct-ID and
maximal-last hypotheses the original claim fails: see the counterexample.) -/
theorem claim_C6_roundtrip (s : Service)
    (hph : ∀ a ∈ s.accounts, ';' ∉ a.Phone ∧ '\n' ∉ a.Phone)
    (hpy : ∀ p ∈ s.payments,
      (';' ∉ p.ID ∧ '\n' ∉ p.ID) ∧ (';' ∉ p.Category ∧ '\n' ∉ p.Category) ∧
      (';' ∉ p.Status ∧ '\n' ∉ p.Status))
    (hfv : ∀ f ∈ s.favorites,
      (';' ∉ f.ID ∧ '\n' ∉ f.ID) ∧ (';' ∉ f.Name ∧ '\n' ∉ f.Name) ∧
      (';' ∉ f.Category ∧ '\n' ∉ f.Category))
    (hAn : (s.accounts.map Account.ID).Nodup)
    (hPn : (s.payments.map Payment.ID).Nodup)
    (hFn : (s.favorites.map Favorite.ID).Nodup) :
    Import emptyService (Export s) =
      (⟨lastIdOr 0 s.accounts, s.accounts, s.payments, s.favorites⟩, .ok) ∧
    ((∀ a ∈ s.accounts, a.ID ≤ lastIdOr 0 s.accounts) →
      ∀ ph t2 acc,
        RegisterAccount (Import emptyService (Export s)).1 ph = (t2, .ok acc) →
        acc.ID ∉ s.accounts.map Account.ID) := by
  have hs1 := stageAcc_export s (fun a ha => (hph a ha).1) hAn
  have hs2 := stagePay_export s ⟨lastIdOr 0 s.accounts, s.accounts, [], []⟩ rfl
    (fun p hp => ⟨(hpy p hp).1.1, (hpy p hp).2.1.1, (hpy p hp).2.2.1⟩) hPn
  have hs3 := stageFav_export s
    ⟨lastIdOr 0 s.accounts, s.accounts, s.payments, []⟩ rfl
    (fun f hf => ⟨(hfv f hf).1.1, (hfv f hf).2.1.1, (hfv f hf).2.2.1⟩) hFn
  have himp : Import emptyService (Export s) =
      (⟨lastIdOr 0 s.accounts, s.accounts, s.payments, s.favorites⟩, .ok) := by
    rw [Import, hs1]
    show (match stageFile importPayLines
        (⟨lastIdOr 0 s.accounts, s.accounts, [], []⟩ : Service)
        (Export s).payments with
      | (s2, RunOut.ok) => stageFile importFavLines s2 (Export s).favorites
      | other => other) = _
    rw [hs2]
    show stageFile importFavLines
        (⟨lastIdOr 0 s.accounts, s.accounts, s.payments, []⟩ : Service)
        (Export s).favorites = _
    rw [hs3]
  refine ⟨himp, ?_⟩
  intro hmax ph t2 acc hreg
  rw [himp] at hreg
  have hid : acc.ID = lastIdOr 0 s.accounts + 1 :=
    RegisterAccount_ok_ID _ ph t2 acc hreg
  intro hmem
  obtain ⟨a, ha, hae⟩ := List.mem_map.mp hmem
  have hle := hmax a ha
  omega

/-- Concrete state for the C6 witness: two accounts (ascending IDs), one
payment, one favorite, none of the string fields containing delimiters. -/
def wService6 : Service :=
  ⟨2, [⟨1, ['p'], 8⟩, ⟨2, ['q'], 3⟩], [⟨['x'], 1, 5, ['c'], statusInProgress⟩],
    [⟨['v'], 1, ['n'], 5, ['c']⟩]⟩

/-- Witness for C6: the round trip over `wService6` reconstructs all three
collections, restores `nextAccountID = 2`, and the next registration's ID 3
collides with no imported ID. -/
theorem claim_C6_roundtrip_witness :
    Import emptyService (Export wService6) =
      (⟨2, wService6.accounts, wService6.payments, wService6.favorites⟩,
        RunOut.ok) ∧
    (⟨3, ['r'], 0⟩ : Account).ID ∉ wService6.accounts.map Account.ID := by
  obtain ⟨himp, hcol⟩ := claim_C6_roundtrip wService6 (by decide) (by decide)
    (by decide) (by decide) (by decide) (by decide)
  refine ⟨himp, ?_⟩
  exact hcol (by decide) ['r']
    ⟨3, wService6.accounts ++ [⟨3, ['r'], 0⟩], wService6.payments,
      wService6.favorites⟩
    ⟨3, ['r'], 0⟩ (by decide)

/-- Account list in descending ID order (reachable e.g. through imports). -/
def sDesc : Service := ⟨2, [⟨2, ['a'], 0⟩, ⟨1, ['b'], 0⟩], [], []⟩

/-- Counterexample to C6 as stated: exporting `sDesc` (IDs `2, 1`, no
delimiter characters anywhere) and importing into a fresh service sets
`nextAccountID` to the *last* record's ID 1, so the next `RegisterAccount`
allocates ID 2 — which collides with an imported account ID. -/
theorem claim_C6_counterexample :
    (Import emptyService (Export sDesc)).2 = RunOut.ok ∧
    (RegisterAccount (Import emptyService (Export sDesc)).1 ['c']).2 =
      .ok ⟨2, ['c'], 0⟩ ∧
    (2 : Int) ∈ sDesc.accounts.map Account.ID := by decide

/-! ## Re-import behaviour (C9) -/

/-- The data the accounts loop of `Import` extracts from a line before its
duplicate pre-check: field 0 and field 2 must parse as integers. -/
def accLineKey (line : Str) : Option Int :=
  match (line.splitOn ';')[0]?, (line.splitOn ';')[2]? with
  | some f0, some f2 =>
    match parseInt f0, parseInt f2 with
    | some id, some _ => some id
    | _, _ => none
  | _, _ => none

/-- The data the payments loop extracts before its pre-check: field 0 is the
payment ID, fields 1 and 2 must parse. -/
def payLineKey (line : Str) : Option Str :=
  match (line.splitOn ';')[0]?, (line.splitOn ';')[1]?, (line.splitOn ';')[2]? with
  | some f0, some f1, some f2 =>
    match parseInt f1, parseInt f2 with
    | some _, some _ => some f0
    | _, _ => none
  | _, _, _ => none

/-- The data the favorites loop extracts before its pre-check: field 0 is the
favorite ID, fields 1 and 3 must parse. -/
def favLineKey (line : Str) : Option Str :=
  match (line.splitOn ';')[0]?, (line.splitOn ';')[1]?, (line.splitOn ';')[3]? with
  | some f0, some f1, some f3 =>
    match parseInt f1, parseInt f3 with
    | some _, some _ => some f0
    | _, _ => none
  | _, _, _ => none

lemma find?_append_singleton_isSome {p : α → Bool} (l : List α) (x : α)
    (hx : p x = true) : ((l ++ [x]).find? p).isSome = true := by
  rw [List.find?_append]
  cases l.find? p with
  | none => rw [Option.none_or, List.find?_cons_of_pos [] hx]; rfl
  | some v => rfl

lemma importAccLines_ok_spec : ∀ (lines : List Str) (s s2 : Service),
    importAccLines s lines = (s2, .ok) →
    s2.payments = s.payments ∧ s2.favorites = s.favorites ∧
    (∀ id, (findAccount s.accounts id).isSome = true →
      (findAccount s2.accounts id).isSome = true) ∧
    (∀ line ∈ lines, ∃ id, accLineKey line = some id ∧
      (findAccount s2.accounts id).isSome = true) := by
  intro lines
  induction lines with
  | nil =>
    intro s s2 hrun
    rw [importAccLines] at hrun
    injection hrun with h1 h2
    subst h1
    exact ⟨rfl, rfl, fun id h => h,
      fun line hl => absurd hl (List.not_mem_nil line)⟩
  | cons line rest ih =>
    intro s s2 hrun
    simp only [importAccLines] at hrun
    split at hrun
    · simp at hrun
    · rename_i f0 h0
      split at hrun
      · simp at hrun
      · rename_i id0 hp0
        split at hrun
        · simp at hrun
        · rename_i f2 h2
          split at hrun
          · simp at hrun
          · rename_i bal0 hp2
            have hkey : accLineKey line = some id0 := by
              simp only [accLineKey, h0, h2, hp0, hp2]
            split at hrun
            · rename_i acc0 hfound
              obtain ⟨hP, hF, hmono, hlines⟩ := ih s s2 hrun
              refine ⟨hP, hF, hmono, ?_⟩
              intro l hl
              rcases List.mem_cons.mp hl with rfl | hl
              · exact ⟨id0, hkey, hmono id0 (by rw [hfound]; rfl)⟩
              · exact hlines l hl
            · rename_i hnotfound
              split at hrun
              · simp at hrun
              · rename_i f1 h1
                obtain ⟨hP, hF, hmono, hlines⟩ := ih _ s2 hrun
                refine ⟨hP, hF, ?_, ?_⟩
                · intro id hid
                  apply hmono
                  exact find?_append_isSome s.accounts [⟨id0, f1, bal0⟩] hid
                · intro l hl
                  rcases List.mem_cons.mp hl with rfl | hl
                  · refine ⟨id0, hkey, hmono id0 ?_⟩
                    apply find?_append_singleton_isSome
                    simp only [beq_iff_eq]
                  · exact hlines l hl

lemma importAccLines_skip : ∀ (lines : List Str) (s : Service),
    (∀ line ∈ lines, ∃ id, accLineKey line = some id ∧
      (findAccount s.accounts id).isSome = true) →
    importAccLines s lines = (s, .ok) := by
  intro lines
  induction lines with
  | nil => intro s _; rw [importAccLines]
  | cons line rest ih =>
    intro s hall
    obtain ⟨id0, hkey, hpres⟩ := hall line (List.mem_cons_self _ _)
    rw [accLineKey] at hkey
    split at hkey
    · rename_i f0 f2 h0 h2
      split at hkey
      · rename_i id1 bal1 hp0 hp2
        injection hkey with hkey
        subst hkey
        obtain ⟨v, hv⟩ := Option.isSome_iff_exists.mp hpres
        simp only [importAccLines, h0, hp0, h2, hp2, hv]
        exact ih s (fun l hl => hall l (List.mem_cons_of_mem _ hl))
      · cases hkey
    · cases hkey

lemma importPayLines_ok_spec : ∀ (lines : List Str) (s s2 : Service),
    importPayLines s lines = (s2, .ok) →
    s2.accounts = s.accounts ∧ s2.favorites = s.favorites ∧
    s2.nextAccountID = s.nextAccountID ∧
    (∀ pid, (findPayment s.payments pid).isSome = true →
      (findPayment s2.payments pid).isSome = true) ∧
    (∀ line ∈ lines, ∃ pid, payLineKey line = some pid ∧
      (findPayment s2.payments pid).isSome = true) := by
  intro lines
  induction lines with
  | nil =>
    intro s s2 hrun
    rw [importPayLines] at hrun
    injection hrun with h1 h2
    subst h1
    exact ⟨rfl, rfl, rfl, fun pid h => h,
      fun line hl => absurd hl (List.not_mem_nil line)⟩
  | cons line rest ih =>
    intro s s2 hrun
    simp only [importPayLines] at hrun
    split at hrun
    · simp at hrun
    · rename_i f0 h0
      split at hrun
      · simp at hrun
      · rename_i f1 h1
        split at hrun
        · simp at hrun
        · rename_i acc0 hp1
          split at hrun
          · simp at hrun
          · rename_i f2 h2
            split at hrun
            · simp at hrun
            · rename_i amt0 hp2
              have hkey : payLineKey line = some f0 := by
                simp only [payLineKey, h0, h1, h2, hp1, hp2]
              split at hrun
              · rename_i pay0 hfound
                obtain ⟨hA, hF, hN, hmono, hlines⟩ := ih s s2 hrun
                refine ⟨hA, hF, hN, hmono, ?_⟩
                intro l hl
                rcases List.mem_cons.mp hl with rfl | hl
                · exact ⟨f0, hkey, hmono f0 (by rw [hfound]; rfl)⟩
                · exact hlines l hl
              · rename_i hnotfound
                split at hrun
                · simp at hrun
                · rename_i f3 h3
                  split at hrun
                  · simp at hrun
                  · rename_i f4 h4
                    obtain ⟨hA, hF, hN, hmono, hlines⟩ := ih _ s2 hrun
                    refine ⟨hA, hF, hN, ?_, ?_⟩
                    · intro pid hpid
                      apply hmono
                      exact find?_append_isSome s.payments
                        [⟨f0, acc0, amt0, f3, f4⟩] hpid
                    · intro l hl
                      rcases List.mem_cons.mp hl with rfl | hl
                      · refine ⟨f0, hkey, hmono f0 ?_⟩
                        apply find?_append_singleton_isSome
                        simp only [beq_iff_eq]
                      · exact hlines l hl

lemma importPayLines_skip : ∀ (lines : List Str) (s : Service),
    (∀ line ∈ lines, ∃ pid, payLineKey line = some pid ∧
      (findPayment s.payments pid).isSome = true) →
    importPayLines s lines = (s, .ok) := by
  intro lines
  induction lines with
  | nil => intro s _; rw [importPayLines]
  | cons line rest ih =>
    intro s hall
    obtain ⟨pid0, hkey, hpres⟩ := hall line (List.mem_cons_self _ _)
    rw [payLineKey] at hkey
    split at hkey
    · rename_i f0 f1 f2 h0 h1 h2
      split at hkey
      · rename_i acc1 amt1 hp1 hp2
        injection hkey with hkey
        subst hkey
        obtain ⟨v, hv⟩ := Option.isSome_iff_exists.mp hpres
        simp only [importPayLines, h0, h1, hp1, h2, hp2, hv]
        exact ih s (fun l hl => hall l (List.mem_cons_of_mem _ hl))
      · cases hkey
    · cases hkey

lemma importFavLines_ok_spec : ∀ (lines : List Str) (s s2 : Service),
    importFavLines s lines = (s2, .ok) →
    s2.accounts = s.accounts ∧ s2.payments = s.payments ∧
    s2.nextAccountID = s.nextAccountID ∧
    (∀ fid, (findFavorite s.favorites fid).isSome = true →
      (findFavorite s2.favorites fid).isSome = true) ∧
    (∀ line ∈ lines, ∃ fid, favLineKey line = some fid ∧
      (findFavorite s2.favorites fid).isSome = true) := by
  intro lines
  induction lines with
  | nil =>
    intro s s2 hrun
    rw [importFavLines] at hrun
    injection hrun with h1 h2
    subst h1
    exact ⟨rfl, rfl, rfl, fun fid h => h,
      fun line hl => absurd hl (List.not_mem_nil line)⟩
  | cons line rest ih =>
    intro s s2 hrun
    simp only [importFavLines] at hrun
    split at hrun
    · simp at hrun
    · rename_i f0 h0
      split at hrun
      · simp at hrun
      · rename_i f1 h1
        split at hrun
        · simp at hrun
        · rename_i acc0 hp1
          split at hrun
          · simp at hrun
          · rename_i f3 h3
            split at hrun
            · simp at hrun
            · rename_i amt0 hp3
              have hkey : favLineKey line = some f0 := by
                simp only [favLineKey, h0, h1, h3, hp1, hp3]
              split at hrun
              · rename_i fav0 hfound
                obtain ⟨hA, hP, hN, hmono, hlines⟩ := ih s s2 hrun
                refine ⟨hA, hP, hN, hmono, ?_⟩
                intro l hl
                rcases List.mem_cons.mp hl with rfl | hl
                · exact ⟨f0, hkey, hmono f0 (by rw [hfound]; rfl)⟩
                · exact hlines l hl
              · rename_i hnotfound
                split at hrun
                · simp at hrun
                · rename_i f2 h2
                  split at hrun
                  · simp at hrun
                  · rename_i f4 h4
                    obtain ⟨hA, hP, hN, hmono, hlines⟩ := ih _ s2 hrun
                    refine ⟨hA, hP, hN, ?_, ?_⟩
                    · intro fid hfid
                      apply hmono
                      exact find?_append_isSome s.favorites
                        [⟨f0, acc0, f2, amt0, f4⟩] hfid
                    · intro l hl
                      rcases List.mem_cons.mp hl with rfl | hl
                      · refine ⟨f0, hkey, hmono f0 ?_⟩
                        apply find?_append_singleton_isSome
                        simp only [beq_iff_eq]
                      · exact hlines l hl

lemma importFavLines_skip : ∀ (lines : List Str) (s : Service),
    (∀ line ∈ lines, ∃ fid, favLineKey line = some fid ∧
      (findFavorite s.favorites fid).isSome = true) →
    importFavLines s lines = (s, .ok) := by
  intro lines
  induction lines with
  | nil => intro s _; rw [importFavLines]
  | cons line rest ih =>
    intro s hall
    obtain ⟨fid0, hkey, hpres⟩ := hall line (List.mem_cons_self _ _)
    rw [favLineKey] at hkey
    split at hkey
    · rename_i f0 f1 f3 h0 h1 h3
      split at hkey
      · rename_i acc1 amt1 hp1 hp3
        injection hkey with hkey
        subst hkey
        obtain ⟨v, hv⟩ := Option.isSome_iff_exists.mp hpres
        simp only [importFavLines, h0, h1, hp1, h3, hp3, hv]
        exact ih s (fun l hl => hall l (List.mem_cons_of_mem _ hl))
      · cases hkey
    · cases hkey

/-- The record the legacy reader builds from one `'|'`-terminated chunk. -/
def chunkRec (chunk : Str) : Option Account :=
  match (chunk.splitOn ';')[0]?, (chunk.splitOn ';')[1]?, (chunk.splitOn ';')[2]? with
  | some f0, some f1, some f2 =>
    match parseInt f0, parseInt (trimBar f2) with
    | some id, some bal => some ⟨id, f1, bal⟩
    | _, _ => none
  | _, _, _ => none

lemma ImportFromFile_ok_spec : ∀ (chunks : List Str) (s v : Service),
    ImportFromFile s chunks = (v, .ok) →
    (∀ ch ∈ chunks, (chunkRec ch).isSome = true) ∧
    v = { s with accounts := s.accounts ++ chunks.filterMap chunkRec } := by
  intro chunks
  induction chunks with
  | nil =>
    intro s v hrun
    rw [ImportFromFile] at hrun
    injection hrun with h1 h2
    subst h1
    refine ⟨fun ch hc => absurd hc (List.not_mem_nil ch), ?_⟩
    simp only [List.filterMap_nil, List.append_nil]
  | cons ch rest ih =>
    intro s v hrun
    simp only [ImportFromFile] at hrun
    split at hrun
    · simp at hrun
    · rename_i f0 h0
      split at hrun
      · simp at hrun
      · rename_i id0 hp0
        split at hrun
        · simp at hrun
        · rename_i f2 h2
          split at hrun
          · simp at hrun
          · rename_i bal0 hp2
            split at hrun
            · simp at hrun
            · rename_i f1 h1
              obtain ⟨hall, hv⟩ := ih _ v hrun
              have hrec : chunkRec ch = some ⟨id0, f1, bal0⟩ := by
                simp only [chunkRec, h0, h1, h2, hp0, hp2]
              refine ⟨?_, ?_⟩
              · intro c hc
                rcases List.mem_cons.mp hc with rfl | hc
                · rw [hrec]; rfl
                · exact hall c hc
              · rw [hv, List.filterMap_cons, hrec]
                simp only [List.append_assoc, List.singleton_append]

lemma ImportFromFile_run : ∀ (chunks : List Str) (s : Service),
    (∀ ch ∈ chunks, (chunkRec ch).isSome = true) →
    ImportFromFile s chunks =
      ({ s with accounts := s.accounts ++ chunks.filterMap chunkRec }, .ok) := by
  intro chunks
  induction chunks with
  | nil =>
    intro s _
    rw [ImportFromFile]
    simp only [List.filterMap_nil, List.append_nil]
  | cons ch rest ih =>
    intro s hall
    have hpres := hall ch (List.mem_cons_self _ _)
    obtain ⟨rec, hrec⟩ := Option.isSome_iff_exists.mp hpres
    rw [chunkRec] at hrec
    split at hrec
    · rename_i f0 f1 f2 h0 h1 h2
      split at hrec
      · rename_i id0 bal0 hp0 hp2
        injection hrec with hrec
        simp only [ImportFromFile, h0, h1, h2, hp0, hp2]
        rw [ih _ (fun c hc => hall c (List.mem_cons_of_mem _ hc))]
        rw [List.filterMap_cons]
        have hrc : chunkRec ch = some ⟨id0, f1, bal0⟩ := by
          simp only [chunkRec, h0, h1, h2, hp0, hp2]
        rw [hrc]
        simp only [List.append_assoc, List.singleton_append]
      · cases hrec
    · cases hrec

/-- Claim C9: re-running the directory `Import` on the same dump contents
adds nothing (the ID pre-checks skip every record), whereas re-running the
legacy `ImportFromFile` on the same chunks appends every parsed record a
second time, duplicating the accounts. -/
theorem claim_C9_reimport (dd : DumpDir) (chunks : List Str) (s t : Service) :
    (Import s dd = (t, .ok) → Import t dd = (t, .ok)) ∧
    (∀ v, ImportFromFile s chunks = (v, .ok) →
      v.accounts = s.accounts ++ chunks.filterMap chunkRec ∧
      ImportFromFile v chunks =
        ({ v with accounts := v.accounts ++ chunks.filterMap chunkRec }, .ok)) := by
  constructor
  · intro h
    rw [Import] at h
    split at h
    · rename_i s1 heq1
      split at h
      · rename_i s2 heq2
        -- h : stageFile importFavLines s2 dd.favorites = (t, .ok)
        -- stage-2 effect on non-payment components
        have h2spec : s2.accounts = s1.accounts ∧ s2.favorites = s1.favorites ∧
            (∀ pid, (findPayment s1.payments pid).isSome = true →
              (findPayment s2.payments pid).isSome = true) ∧
            (∀ ls, dd.payments = some ls → ∀ line ∈ ls, ∃ pid,
              payLineKey line = some pid ∧
              (findPayment s2.payments pid).isSome = true) := by
          cases ho : dd.payments with
          | none =>
            rw [ho] at heq2
            injection heq2 with he _
            subst he
            exact ⟨rfl, rfl, fun pid hp => hp, fun ls hls => by cases hls⟩
          | some ls =>
            rw [ho] at heq2
            obtain ⟨hA, hF, _, hmono, hlines⟩ :=
              importPayLines_ok_spec ls s1 s2 heq2
            refine ⟨hA, hF, hmono, ?_⟩
            intro ls2 hls2
            injection hls2 with hls2
            subst hls2
            exact hlines
        have h3spec : t.accounts = s2.accounts ∧ t.payments = s2.payments ∧
            (∀ fid, (findFavorite s2.favorites fid).isSome = true →
              (findFavorite t.favorites fid).isSome = true) ∧
            (∀ ls, dd.favorites = some ls → ∀ line ∈ ls, ∃ fid,
              favLineKey line = some fid ∧
              (findFavorite t.favorites fid).isSome = true) := by
          cases ho : dd.favorites with
          | none =>
            rw [ho] at h
            injection h with he _
            subst he
            exact ⟨rfl, rfl, fun fid hf => hf, fun ls hls => by cases hls⟩
          | some ls =>
            rw [ho] at h
            obtain ⟨hA, hP, _, hmono, hlines⟩ :=
              importFavLines_ok_spec ls s2 t h
            refine ⟨hA, hP, hmono, ?_⟩
            intro ls2 hls2
            injection hls2 with hls2
            subst hls2
            exact hlines
        have htacc : t.accounts = s1.accounts := by
          rw [h3spec.1, h2spec.1]
        -- re-run, stage by stage
        have hre1 : stageFile importAccLines t dd.accounts = (t, .ok) := by
          cases ho : dd.accounts with
          | none => rfl
          | some ls =>
            rw [ho] at heq1
            have heq1' : importAccLines s ls = (s1, .ok) := heq1
            obtain ⟨_, _, _, hlines⟩ := importAccLines_ok_spec ls s s1 heq1'
            show importAccLines t ls = (t, .ok)
            apply importAccLines_skip
            intro line hl
            obtain ⟨id, hk, hpres⟩ := hlines line hl
            refine ⟨id, hk, ?_⟩
            rw [htacc]
            exact hpres
        have hre2 : stageFile importPayLines t dd.payments = (t, .ok) := by
          cases ho : dd.payments with
          | none => rfl
          | some ls =>
            show importPayLines t ls = (t, .ok)
            apply importPayLines_skip
            intro line hl
            obtain ⟨pid, hk, hpres⟩ := h2spec.2.2.2 ls ho line hl
            refine ⟨pid, hk, ?_⟩
            rw [h3spec.2.1]
            exact hpres
        have hre3 : stageFile importFavLines t dd.favorites = (t, .ok) := by
          cases ho : dd.favorites with
          | none => rfl
          | some ls =>
            show importFavLines t ls = (t, .ok)
            apply importFavLines_skip
            intro line hl
            exact h3spec.2.2.2 ls ho line hl
        rw [Import, hre1]
        show (match stageFile importPayLines t dd.payments with
          | (s2, RunOut.ok) => stageFile importFavLines s2 dd.favorites
          | other => other) = _
        rw [hre2]
        exact hre3
      · rename_i hcon
        exact absurd h (hcon t)
    · rename_i hcon
      exact absurd h (hcon t)
  · intro v hrun
    obtain ⟨hall, hv⟩ := ImportFromFile_ok_spec chunks s v hrun
    refine ⟨by rw [hv], ?_⟩
    exact ImportFromFile_run chunks v hall

/-- Witness for C9: a one-account dump. Re-importing the directory dump
changes nothing, re-importing the legacy file duplicates the account. -/
theorem claim_C9_reimport_witness :
    Import ⟨1, [⟨1, ['p'], 5⟩], [], []⟩
      ⟨some [['1', ';', 'p', ';', '5']], none, none⟩ =
      (⟨1, [⟨1, ['p'], 5⟩], [], []⟩, .ok) ∧
    ImportFromFile ⟨0, [⟨1, ['p'], 5⟩], [], []⟩
      [['1', ';', 'p', ';', '5', '|']] =
      (⟨0, [⟨1, ['p'], 5⟩, ⟨1, ['p'], 5⟩], [], []⟩, .ok) := by
  have h := claim_C9_reimport ⟨some [['1', ';', 'p', ';', '5']], none, none⟩
    [['1', ';', 'p', ';', '5', '|']] emptyService ⟨1, [⟨1, ['p'], 5⟩], [], []⟩
  refine ⟨h.1 (by decide), ?_⟩
  obtain ⟨hacc, hre⟩ := h.2 ⟨0, [⟨1, ['p'], 5⟩], [], []⟩ (by decide)
  exact hre
